import Mathlib

/-
Shallow embedding of the in-memory storage layer of the My-memecoin
repository: class `MemStorage` in `server/storage.ts`, together with the
duplicate-subscription check of the `POST /api/subscribe` handler in
`server/routes.ts`.

Modelling conventions, stated once here:

* Each JavaScript `Map<number, T>` is an insertion-ordered association list
  `List (Nat × T)`.  `mapGet`, `mapSet` and `mapValues` mirror `Map.get`,
  `Map.set` (update in place for an existing key, append otherwise) and
  `Array.from(map.values())`.
* `Date` values are modelled as natural numbers (milliseconds).  Every
  operation that calls `new Date()` takes the current instant as an explicit
  `now : Nat` argument.  `resetExpires.setHours(getHours() + 1)` becomes
  `now + oneHourMs`.
* JavaScript numbers are IEEE doubles; the claims under study are exact
  bookkeeping identities, so quantity-like columns (amounts, prices, volumes,
  points) are modelled as `Int`, and the two rate columns that the seed data
  fills with non-integral constants (`tradingFee`, `tradingFeeDiscount`) as
  `ℚ`.  Floating-point rounding is outside the scope of this development.
* Nullable columns (and TypeScript fields that may be `undefined`) are
  `Option`s.  A TypeScript `Partial<T>` argument is a structure of `Option`s,
  one per field of `T`; spreading `{...stored, ...partial}` is `applyTPatch`.
  Writing `field: undefined` in an object literal (as `verifyUser` and
  `resetPassword` do to clear token fields) deletes the value, hence a patch
  field of an `Option` column has type `Option (Option _)`.
* `Math.random()`-generated reset tokens are taken as an explicit argument
  of `generateResetToken`; nothing else in the class is nondeterministic.
* `async`/`await` sequencing inside one method is purely sequential state
  passing; every method becomes a pure function `Store → ... → result × Store`.
-/

namespace MemStorage

/-- JS `Map.get`: the entry with the given key (keys are unique in a real
`Map`; on an association list we take the first such entry). -/
def mapGet {α : Type} (m : List (Nat × α)) (k : Nat) : Option α :=
  (m.find? (fun p => p.1 == k)).map Prod.snd

/-- JS `Map.has`. -/
def mapHas {α : Type} (m : List (Nat × α)) (k : Nat) : Bool :=
  m.any (fun p => p.1 == k)

/-- JS `Map.set`: overwrite in place when the key is present (keeping the
original insertion position), otherwise append at the end. -/
def mapSet {α : Type} (m : List (Nat × α)) (k : Nat) (v : α) : List (Nat × α) :=
  if mapHas m k then m.map (fun p => if p.1 == k then (k, v) else p)
  else m ++ [(k, v)]

/-- JS `Array.from(map.values())`: the values in insertion order. -/
def mapValues {α : Type} (m : List (Nat × α)) : List α := m.map Prod.snd

/-! ### Entity records (shared/schema.ts) -/
/-- Row type `User` (`shared/schema.ts`, table `users`). -/
structure User where
  id : Nat
  username : String
  email : String
  password : String
  fullName : Option String := none
  walletAddress : Option String := none
  twoFactorEnabled : Bool := false
  twoFactorSecret : Option String := none
  createdAt : Nat := 0
  updatedAt : Nat := 0
  profilePicture : Option String := none
  isVerified : Bool := false
  verificationToken : Option String := none
  resetPasswordToken : Option String := none
  resetPasswordExpires : Option Nat := none
  totalTradingVolume : Int := 0
  rewardsPoints : Int := 0
  referralCode : Option String := none
  referredBy : Option Nat := none
  deriving Repr, DecidableEq

/-- `InsertUser` (the columns picked by `insertUserSchema`). -/
structure InsertUser where
  username : String
  email : String
  password : String
  fullName : Option String := none
  walletAddress : Option String := none
  deriving Repr, DecidableEq

/-- Row type `TradingPair`. -/
structure TradingPair where
  id : Nat
  baseAsset : String
  quoteAsset : String
  pairSymbol : String
  minTradeAmount : Int
  maxTradeAmount : Option Int := none
  tradingFee : Option ℚ := none
  isActive : Option Bool := none
  deriving DecidableEq

/-- `InsertTradingPair`. -/
structure InsertTradingPair where
  baseAsset : String
  quoteAsset : String
  pairSymbol : String
  minTradeAmount : Int
  maxTradeAmount : Option Int := none
  tradingFee : Option ℚ := none
  isActive : Option Bool := none
  deriving DecidableEq

/-- Row type `Order`.  `type` is `"Market"` or `"Limit"`; `status` is
`"Open"`, `"Filled"`, `"Cancelled"` or `"Partial"`. -/
structure Order where
  id : Nat
  userId : Nat
  tradingPairId : Nat
  type : String
  side : String
  price : Option Int := none
  amount : Int
  filled : Int := 0
  status : String
  createdAt : Nat := 0
  updatedAt : Nat := 0
  deriving Repr, DecidableEq

/-- `InsertOrder`. -/
structure InsertOrder where
  userId : Nat
  tradingPairId : Nat
  type : String
  side : String
  price : Option Int := none
  amount : Int
  deriving Repr, DecidableEq

/-- Row type `Trade`. -/
structure Trade where
  id : Nat
  buyOrderId : Nat
  sellOrderId : Nat
  tradingPairId : Nat
  price : Int
  amount : Int
  totalValue : Int
  fee : Int
  timestamp : Nat := 0
  deriving Repr, DecidableEq

/-- `InsertTrade`. -/
structure InsertTrade where
  buyOrderId : Nat
  sellOrderId : Nat
  tradingPairId : Nat
  price : Int
  amount : Int
  totalValue : Int
  fee : Int
  deriving Repr, DecidableEq

/-- Row type `RewardsEvent`. -/
structure RewardsEvent where
  id : Nat
  userId : Nat
  eventType : String
  points : Int
  description : String
  createdAt : Nat := 0
  additionalData : Option String := none
  deriving Repr, DecidableEq

/-- `InsertRewardsEvent`. -/
structure InsertRewardsEvent where
  userId : Nat
  eventType : String
  points : Int
  description : String
  additionalData : Option String := none
  deriving Repr, DecidableEq

/-- Row type `RewardsTier`. -/
structure RewardsTier where
  id : Nat
  name : String
  pointsRequired : Int
  tradingFeeDiscount : Option ℚ := none
  additionalBenefits : Option (List String) := none
  icon : Option String := none
  deriving DecidableEq

/-- `InsertRewardsTier`. -/
structure InsertRewardsTier where
  name : String
  pointsRequired : Int
  tradingFeeDiscount : Option ℚ := none
  additionalBenefits : Option (List String) := none
  icon : Option String := none
  deriving DecidableEq

/-- Row type `NewsArticle`. -/
structure NewsArticle where
  id : Nat
  title : String
  content : String
  summary : Option String := none
  author : Option String := none
  publishDate : Option Nat := none
  isPublished : Option Bool := none
  imageUrl : Option String := none
  tags : Option (List String) := none
  deriving Repr, DecidableEq

/-- `InsertNewsArticle`. -/
structure InsertNewsArticle where
  title : String
  content : String
  summary : Option String := none
  author : Option String := none
  publishDate : Option Nat := none
  isPublished : Option Bool := none
  imageUrl : Option String := none
  tags : Option (List String) := none
  deriving Repr, DecidableEq

/-- Row type `Subscriber`. -/
structure Subscriber where
  id : Nat
  email : String
  subscribedAt : Nat := 0
  isActive : Bool := true
  deriving Repr, DecidableEq

/-- `InsertSubscriber`. -/
structure InsertSubscriber where
  email : String
  deriving Repr, DecidableEq

/-! ### Partial-update records (`Partial<T>` arguments of the update methods) -/
/-- `Partial<User>`: every field optional; `none` means "key absent". -/
structure UserPatch where
  id : Option Nat := none
  username : Option String := none
  email : Option String := none
  password : Option String := none
  fullName : Option (Option String) := none
  walletAddress : Option (Option String) := none
  twoFactorEnabled : Option Bool := none
  twoFactorSecret : Option (Option String) := none
  createdAt : Option Nat := none
  updatedAt : Option Nat := none
  profilePicture : Option (Option String) := none
  isVerified : Option Bool := none
  verificationToken : Option (Option String) := none
  resetPasswordToken : Option (Option String) := none
  resetPasswordExpires : Option (Option Nat) := none
  totalTradingVolume : Option Int := none
  rewardsPoints : Option Int := none
  referralCode : Option (Option String) := none
  referredBy : Option (Option Nat) := none
  deriving Repr, DecidableEq

/-- `{...u, ...d}` for a user record and a `Partial<User>`. -/
def applyUserPatch (u : User) (d : UserPatch) : User where
  id := d.id.getD u.id
  username := d.username.getD u.username
  email := d.email.getD u.email
  password := d.password.getD u.password
  fullName := d.fullName.getD u.fullName
  walletAddress := d.walletAddress.getD u.walletAddress
  twoFactorEnabled := d.twoFactorEnabled.getD u.twoFactorEnabled
  twoFactorSecret := d.twoFactorSecret.getD u.twoFactorSecret
  createdAt := d.createdAt.getD u.createdAt
  updatedAt := d.updatedAt.getD u.updatedAt
  profilePicture := d.profilePicture.getD u.profilePicture
  isVerified := d.isVerified.getD u.isVerified
  verificationToken := d.verificationToken.getD u.verificationToken
  resetPasswordToken := d.resetPasswordToken.getD u.resetPasswordToken
  resetPasswordExpires := d.resetPasswordExpires.getD u.resetPasswordExpires
  totalTradingVolume := d.totalTradingVolume.getD u.totalTradingVolume
  rewardsPoints := d.rewardsPoints.getD u.rewardsPoints
  referralCode := d.referralCode.getD u.referralCode
  referredBy := d.referredBy.getD u.referredBy

/-- `Partial<Order>`. -/
structure OrderPatch where
  id : Option Nat := none
  userId : Option Nat := none
  tradingPairId : Option Nat := none
  type : Option String := none
  side : Option String := none
  price : Option (Option Int) := none
  amount : Option Int := none
  filled : Option Int := none
  status : Option String := none
  createdAt : Option Nat := none
  updatedAt : Option Nat := none
  deriving Repr, DecidableEq

/-- `{...o, ...d}` for an order record and a `Partial<Order>`. -/
def applyOrderPatch (o : Order) (d : OrderPatch) : Order where
  id := d.id.getD o.id
  userId := d.userId.getD o.userId
  tradingPairId := d.tradingPairId.getD o.tradingPairId
  type := d.type.getD o.type
  side := d.side.getD o.side
  price := d.price.getD o.price
  amount := d.amount.getD o.amount
  filled := d.filled.getD o.filled
  status := d.status.getD o.status
  createdAt := d.createdAt.getD o.createdAt
  updatedAt := d.updatedAt.getD o.updatedAt

/-- `Partial<TradingPair>`. -/
structure TradingPairPatch where
  id : Option Nat := none
  baseAsset : Option String := none
  quoteAsset : Option String := none
  pairSymbol : Option String := none
  minTradeAmount : Option Int := none
  maxTradeAmount : Option (Option Int) := none
  tradingFee : Option (Option ℚ) := none
  isActive : Option (Option Bool) := none
  deriving DecidableEq

/-- `{...p, ...d}` for a trading pair and a `Partial<TradingPair>`. -/
def applyTradingPairPatch (p : TradingPair) (d : TradingPairPatch) : TradingPair where
  id := d.id.getD p.id
  baseAsset := d.baseAsset.getD p.baseAsset
  quoteAsset := d.quoteAsset.getD p.quoteAsset
  pairSymbol := d.pairSymbol.getD p.pairSymbol
  minTradeAmount := d.minTradeAmount.getD p.minTradeAmount
  maxTradeAmount := d.maxTradeAmount.getD p.maxTradeAmount
  tradingFee := d.tradingFee.getD p.tradingFee
  isActive := d.isActive.getD p.isActive

/-- `Partial<NewsArticle>`. -/
structure NewsArticlePatch where
  id : Option Nat := none
  title : Option String := none
  content : Option String := none
  summary : Option (Option String) := none
  author : Option (Option String) := none
  publishDate : Option (Option Nat) := none
  isPublished : Option (Option Bool) := none
  imageUrl : Option (Option String) := none
  tags : Option (Option (List String)) := none
  deriving Repr, DecidableEq

/-- `{...a, ...d}` for a news article and a `Partial<NewsArticle>`. -/
def applyNewsArticlePatch (a : NewsArticle) (d : NewsArticlePatch) : NewsArticle where
  id := d.id.getD a.id
  title := d.title.getD a.title
  content := d.content.getD a.content
  summary := d.summary.getD a.summary
  author := d.author.getD a.author
  publishDate := d.publishDate.getD a.publishDate
  isPublished := d.isPublished.getD a.isPublished
  imageUrl := d.imageUrl.getD a.imageUrl
  tags := d.tags.getD a.tags

/-! ### The store (fields of class `MemStorage`) -/
/-- The private fields of `MemStorage`: one map and one id counter per
entity type. -/
structure Store where
  users : List (Nat × User) := []
  tradingPairs : List (Nat × TradingPair) := []
  orders : List (Nat × Order) := []
  trades : List (Nat × Trade) := []
  rewardsEvents : List (Nat × RewardsEvent) := []
  rewardsTiers : List (Nat × RewardsTier) := []
  newsArticles : List (Nat × NewsArticle) := []
  subscribers : List (Nat × Subscriber) := []
  userCurrentId : Nat := 1
  tradingPairCurrentId : Nat := 1
  orderCurrentId : Nat := 1
  tradeCurrentId : Nat := 1
  rewardsEventCurrentId : Nat := 1
  rewardsTierCurrentId : Nat := 1
  newsArticleCurrentId : Nat := 1
  subscriberCurrentId : Nat := 1
  deriving DecidableEq

/-! ### User methods -/
/-- `getUser(id)`. -/
def getUser (s : Store) (id : Nat) : Option User :=
  mapGet s.users id

/-- `getUserByUsername(username)`. -/
def getUserByUsername (s : Store) (username : String) : Option User :=
  (mapValues s.users).find? (fun u => u.username == username)

/-- `getUserByEmail(email)`. -/
def getUserByEmail (s : Store) (email : String) : Option User :=
  (mapValues s.users).find? (fun u => u.email == email)

/-- `getUserByWalletAddress(walletAddress)`. -/
def getUserByWalletAddress (s : Store) (walletAddress : String) : Option User :=
  (mapValues s.users).find? (fun u => u.walletAddress == some walletAddress)

/-- `createUser(insertUser)` (storage.ts lines 195-215): takes the next id,
derives the referral code from the username, fills in the defaulted fields
(`rewardsPoints: 0`, `totalTradingVolume: 0`, ...), stores and returns. -/
def createUser (s : Store) (now : Nat) (insertUser : InsertUser) : User × Store :=
  let id := s.userCurrentId
  let referralCode := (insertUser.username.take 5).toUpper ++ toString id
  let user : User :=
    { id := id
      username := insertUser.username
      email := insertUser.email
      password := insertUser.password
      fullName := insertUser.fullName
      walletAddress := insertUser.walletAddress
      createdAt := now
      updatedAt := now
      twoFactorEnabled := false
      isVerified := false
      totalTradingVolume := 0
      rewardsPoints := 0
      referralCode := some referralCode }
  (user, { s with users := mapSet s.users id user, userCurrentId := id + 1 })

/-- `updateUser(id, data)` (storage.ts lines 217-224): merge, restamp
`updatedAt`, store; `undefined` when the id is absent. -/
def updateUser (s : Store) (now : Nat) (id : Nat) (d : UserPatch) :
    Option User × Store :=
  match getUser s id with
  | none => (none, s)
  | some user =>
    let updatedUser := { applyUserPatch user d with updatedAt := now }
    (some updatedUser, { s with users := mapSet s.users id updatedUser })

/-- `verifyUser(verificationToken)` (storage.ts lines 238-255). -/
def verifyUser (s : Store) (now : Nat) (verificationToken : String) :
    Option User × Store :=
  match (mapValues s.users).find?
      (fun u => u.verificationToken == some verificationToken) with
  | some user =>
    let updatedUser :=
      { user with isVerified := true, verificationToken := none, updatedAt := now }
    (some updatedUser, { s with users := mapSet s.users user.id updatedUser })
  | none => (none, s)

/-- The selection condition of `resetPassword`:
`user.resetPasswordToken === resetToken && user.resetPasswordExpires &&
user.resetPasswordExpires > new Date()`. -/
def resetTokenLive (u : User) (resetToken : String) (now : Nat) : Bool :=
  u.resetPasswordToken == some resetToken &&
    (match u.resetPasswordExpires with
     | some e => now < e
     | none => false)

/-- `resetPassword(resetToken, newPassword)` (storage.ts lines 257-277). -/
def resetPassword (s : Store) (now : Nat) (resetToken : String)
    (newPassword : String) : Bool × Store :=
  match (mapValues s.users).find? (fun u => resetTokenLive u resetToken now) with
  | some user =>
    let updatedUser :=
      { user with
          password := newPassword
          resetPasswordToken := none
          resetPasswordExpires := none
          updatedAt := now }
    (true, { s with users := mapSet s.users user.id updatedUser })
  | none => (false, s)

/-- One hour in milliseconds: the reset-token lifetime that
`resetExpires.setHours(resetExpires.getHours() + 1)` adds. -/
def oneHourMs : Nat := 3600000

/-- `generateResetToken(email)` (storage.ts lines 279-300).  The
`Math.random()`-derived token is passed in as `resetToken`. -/
def generateResetToken (s : Store) (now : Nat) (email : String)
    (resetToken : String) : Option String × Store :=
  match getUserByEmail s email with
  | none => (none, s)
  | some user =>
    let updatedUser :=
      { user with
          resetPasswordToken := some resetToken
          resetPasswordExpires := some (now + oneHourMs)
          updatedAt := now }
    (some resetToken, { s with users := mapSet s.users user.id updatedUser })

/-! ### Trading pair methods -/
/-- `getTradingPair(id)`. -/
def getTradingPair (s : Store) (id : Nat) : Option TradingPair :=
  mapGet s.tradingPairs id

/-- `getTradingPairBySymbol(symbol)`. -/
def getTradingPairBySymbol (s : Store) (symbol : String) : Option TradingPair :=
  (mapValues s.tradingPairs).find? (fun p => p.pairSymbol == symbol)

/-- `getAllTradingPairs(activeOnly = true)`. -/
def getAllTradingPairs (s : Store) (activeOnly : Bool := true) : List TradingPair :=
  let pairs := mapValues s.tradingPairs
  if activeOnly then pairs.filter (fun p => p.isActive.getD false) else pairs

/-- `createTradingPair(tradingPair)` (storage.ts lines 318-323). -/
def createTradingPair (s : Store) (tradingPair : InsertTradingPair) :
    TradingPair × Store :=
  let id := s.tradingPairCurrentId
  let pair : TradingPair :=
    { id := id
      baseAsset := tradingPair.baseAsset
      quoteAsset := tradingPair.quoteAsset
      pairSymbol := tradingPair.pairSymbol
      minTradeAmount := tradingPair.minTradeAmount
      maxTradeAmount := tradingPair.maxTradeAmount
      tradingFee := tradingPair.tradingFee
      isActive := tradingPair.isActive }
  (pair, { s with tradingPairs := mapSet s.tradingPairs id pair,
                  tradingPairCurrentId := id + 1 })

/-- `updateTradingPair(id, data)` (storage.ts lines 325-332): merge and
store; no `updatedAt` column on this entity. -/
def updateTradingPair (s : Store) (id : Nat) (d : TradingPairPatch) :
    Option TradingPair × Store :=
  match getTradingPair s id with
  | none => (none, s)
  | some pair =>
    let updatedPair := applyTradingPairPatch pair d
    (some updatedPair, { s with tradingPairs := mapSet s.tradingPairs id updatedPair })

/-! ### Order methods -/
/-- `getOrder(id)`. -/
def getOrder (s : Store) (id : Nat) : Option Order :=
  mapGet s.orders id

/-- `createOrder(order)` (storage.ts lines 357-372): `filled` starts at 0;
a Market order is marked `"Filled"` immediately, otherwise `"Open"`. -/
def createOrder (s : Store) (now : Nat) (order : InsertOrder) : Order × Store :=
  let id := s.orderCurrentId
  let newOrder : Order :=
    { id := id
      userId := order.userId
      tradingPairId := order.tradingPairId
      type := order.type
      side := order.side
      price := order.price
      amount := order.amount
      filled := 0
      status := if order.type == "Market" then "Filled" else "Open"
      createdAt := now
      updatedAt := now }
  (newOrder, { s with orders := mapSet s.orders id newOrder,
                      orderCurrentId := id + 1 })

/-- `updateOrder(id, data)` (storage.ts lines 374-381). -/
def updateOrder (s : Store) (now : Nat) (id : Nat) (d : OrderPatch) :
    Option Order × Store :=
  match getOrder s id with
  | none => (none, s)
  | some order =>
    let updatedOrder := { applyOrderPatch order d with updatedAt := now }
    (some updatedOrder, { s with orders := mapSet s.orders id updatedOrder })

/-! ### Trade methods -/
/-- `getTrade(id)`. -/
def getTrade (s : Store) (id : Nat) : Option Trade :=
  mapGet s.trades id

/-- One `if (order) { await this.updateOrder(order.id, {...}) }` block of
`createTrade` (storage.ts lines 421-433): if the (stale-read) order exists,
add the trade amount to its `filled` and recompute its status — against the
*re-read* record, since `updateOrder` fetches the order again. -/
def applyOrderFill (s : Store) (now : Nat) (a : Int) : Option Order → Store
  | none => s
  | some o =>
    (updateOrder s now o.id
      { filled := some (o.filled + a)
        status := some (if o.filled + a ≥ o.amount
                        then "Filled" else "Partial") }).2

/-- One `if (order) { const user = await this.getUser(order.userId); ... }`
block of `createTrade` (storage.ts lines 436-452): if the (stale-read) order
exists and the user behind it exists *in the current store*, add the trade's
`totalValue` to that user's `totalTradingVolume`. -/
def applyVolume (s : Store) (now : Nat) (tv : Int) : Option Order → Store
  | none => s
  | some o =>
    match getUser s o.userId with
    | none => s
    | some usr =>
      (updateUser s now usr.id
        { totalTradingVolume := some (usr.totalTradingVolume + tv) }).2

/-- `createTrade(trade)` (storage.ts lines 405-455).  The trade is stored
first; then **both** referenced orders are read (before either update), each
existing one gets `filled` increased by `trade.amount` and its status
recomputed; then the user behind each order is read in turn (the second
read *after* the first user update) and has `trade.totalValue` added to
`totalTradingVolume`.  `(x || 0)` on the always-populated numeric fields is
the identity and is dropped. -/
def createTrade (s : Store) (now : Nat) (trade : InsertTrade) : Trade × Store :=
  let id := s.tradeCurrentId
  let newTrade : Trade :=
    { id := id
      buyOrderId := trade.buyOrderId
      sellOrderId := trade.sellOrderId
      tradingPairId := trade.tradingPairId
      price := trade.price
      amount := trade.amount
      totalValue := trade.totalValue
      fee := trade.fee
      timestamp := now }
  let s1 : Store := { s with trades := mapSet s.trades id newTrade,
                             tradeCurrentId := id + 1 }
  let buyOrder := getOrder s1 trade.buyOrderId
  let sellOrder := getOrder s1 trade.sellOrderId
  let s2 := applyOrderFill s1 now trade.amount buyOrder
  let s3 := applyOrderFill s2 now trade.amount sellOrder
  let s4 := applyVolume s3 now trade.totalValue buyOrder
  let s5 := applyVolume s4 now trade.totalValue sellOrder
  (newTrade, s5)

/-! ### Rewards methods -/
/-- `getRewardsEvent(id)`. -/
def getRewardsEvent (s : Store) (id : Nat) : Option RewardsEvent :=
  mapGet s.rewardsEvents id

/-- `getUserRewardsEvents(userId)`. -/
def getUserRewardsEvents (s : Store) (userId : Nat) : List RewardsEvent :=
  (mapValues s.rewardsEvents).filter (fun e => e.userId == userId)

/-- `createRewardsEvent(event)` (storage.ts lines 468-489): store the event,
then add `event.points` to the referenced user's `rewardsPoints` — if that
user exists; otherwise the event is kept but no user is updated. -/
def createRewardsEvent (s : Store) (now : Nat) (event : InsertRewardsEvent) :
    RewardsEvent × Store :=
  let id := s.rewardsEventCurrentId
  let newEvent : RewardsEvent :=
    { id := id
      userId := event.userId
      eventType := event.eventType
      points := event.points
      description := event.description
      additionalData := event.additionalData
      createdAt := now }
  let s1 : Store := { s with rewardsEvents := mapSet s.rewardsEvents id newEvent,
                             rewardsEventCurrentId := id + 1 }
  let s2 := match getUser s1 event.userId with
    | none => s1
    | some user =>
      (updateUser s1 now user.id
        { rewardsPoints := some (user.rewardsPoints + event.points) }).2
  (newEvent, s2)

/-- `getAllRewardsTiers()`. -/
def getAllRewardsTiers (s : Store) : List RewardsTier :=
  mapValues s.rewardsTiers

/-- Stable insertion of a tier into a list already sorted by `pointsRequired`
descending: the model of one step of the (stable) JS array sort with
comparator `(a, b) => b.pointsRequired - a.pointsRequired`. -/
def insertTierDesc (t : RewardsTier) : List RewardsTier → List RewardsTier
  | [] => [t]
  | u :: us =>
    if u.pointsRequired ≤ t.pointsRequired then t :: u :: us
    else u :: insertTierDesc t us

/-- Stable sort of the tier array by `pointsRequired` descending. -/
def sortTiersDesc : List RewardsTier → List RewardsTier
  | [] => []
  | t :: ts => insertTierDesc t (sortTiersDesc ts)

/-- `getUserRewardsTier(userId)` (storage.ts lines 491-509).  Note the
aliasing in the source: `const sortedTiers = tiers.sort(...)` sorts the
`tiers` array **in place**, so the fallback `return tiers[0]` reads the
*sorted* array — its head is the tier with the largest `pointsRequired`,
not the smallest. -/
def getUserRewardsTier (s : Store) (userId : Nat) : Option RewardsTier :=
  match getUser s userId with
  | none => none
  | some user =>
    let sortedTiers := sortTiersDesc (getAllRewardsTiers s)
    match sortedTiers.find? (fun t => t.pointsRequired ≤ user.rewardsPoints) with
    | some tier => some tier
    | none => sortedTiers.head?

/-- `createRewardsTier(tier)` (storage.ts lines 515-525). -/
def createRewardsTier (s : Store) (tier : InsertRewardsTier) :
    RewardsTier × Store :=
  let id := s.rewardsTierCurrentId
  let newTier : RewardsTier :=
    { id := id
      name := tier.name
      pointsRequired := tier.pointsRequired
      tradingFeeDiscount := tier.tradingFeeDiscount
      additionalBenefits := tier.additionalBenefits
      icon := tier.icon }
  (newTier, { s with rewardsTiers := mapSet s.rewardsTiers id newTier,
                     rewardsTierCurrentId := id + 1 })

/-! ### News methods -/
/-- `getNewsArticle(id)`. -/
def getNewsArticle (s : Store) (id : Nat) : Option NewsArticle :=
  mapGet s.newsArticles id

/-- `createNewsArticle(article)` (storage.ts lines 544-554). -/
def createNewsArticle (s : Store) (article : InsertNewsArticle) :
    NewsArticle × Store :=
  let id := s.newsArticleCurrentId
  let newArticle : NewsArticle :=
    { id := id
      title := article.title
      content := article.content
      summary := article.summary
      author := article.author
      publishDate := article.publishDate
      isPublished := article.isPublished
      imageUrl := article.imageUrl
      tags := article.tags }
  (newArticle, { s with newsArticles := mapSet s.newsArticles id newArticle,
                        newsArticleCurrentId := id + 1 })

/-- `updateNewsArticle(id, data)` (storage.ts lines 556-563): merge and
store; no `updatedAt` restamp on this entity. -/
def updateNewsArticle (s : Store) (id : Nat) (d : NewsArticlePatch) :
    Option NewsArticle × Store :=
  match getNewsArticle s id with
  | none => (none, s)
  | some article =>
    let updatedArticle := applyNewsArticlePatch article d
    (some updatedArticle,
     { s with newsArticles := mapSet s.newsArticles id updatedArticle })

/-! ### Subscriber methods -/
/-- `createSubscriber(insertSubscriber)` (storage.ts lines 566-579). -/
def createSubscriber (s : Store) (now : Nat) (insertSubscriber : InsertSubscriber) :
    Subscriber × Store :=
  let id := s.subscriberCurrentId
  let subscriber : Subscriber :=
    { id := id
      email := insertSubscriber.email
      subscribedAt := now
      isActive := true }
  (subscriber, { s with subscribers := mapSet s.subscribers id subscriber,
                        subscriberCurrentId := id + 1 })

/-- `getSubscriberByEmail(email)`. -/
def getSubscriberByEmail (s : Store) (email : String) : Option Subscriber :=
  (mapValues s.subscribers).find? (fun sub => sub.email == email)

/-- `getAllSubscribers()` (storage.ts lines 587-591): only the active ones. -/
def getAllSubscribers (s : Store) : List Subscriber :=
  (mapValues s.subscribers).filter (fun sub => sub.isActive)

/-- `unsubscribe(email)` (storage.ts lines 593-600): soft delete. -/
def unsubscribe (s : Store) (email : String) : Bool × Store :=
  match getSubscriberByEmail s email with
  | none => (false, s)
  | some subscriber =>
    let updatedSubscriber := { subscriber with isActive := false }
    (true, { s with subscribers := mapSet s.subscribers subscriber.id updatedSubscriber })

/-- The duplicate check of the `POST /api/subscribe` handler
(`server/routes.ts` lines 519-536): the request is rejected with HTTP 400
whenever `getSubscriberByEmail` returns a record — active or not. -/
def subscribeRejectsDuplicate (s : Store) (email : String) : Bool :=
  (getSubscriberByEmail s email).isSome

/-! ### The constructor (storage.ts lines 86-170): empty maps, counters at 1,
three seeded trading pairs and the four seeded reward tiers. -/
/-- The store as built by `new MemStorage()`. -/
def initStore : Store :=
  let s0 : Store := {}
  let s1 := (createTradingPair s0
    { baseAsset := "T&E", quoteAsset := "SOL", pairSymbol := "T&E/SOL"
      minTradeAmount := 100, maxTradeAmount := some 1000000
      tradingFee := some 0.001, isActive := some true }).2
  let s2 := (createTradingPair s1
    { baseAsset := "T&E", quoteAsset := "USDC", pairSymbol := "T&E/USDC"
      minTradeAmount := 100, maxTradeAmount := some 1000000
      tradingFee := some 0.001, isActive := some true }).2
  let s3 := (createTradingPair s2
    { baseAsset := "T&E", quoteAsset := "BTC", pairSymbol := "T&E/BTC"
      minTradeAmount := 100, maxTradeAmount := some 1000000
      tradingFee := some 0.001, isActive := some true }).2
  let s4 := (createRewardsTier s3
    { name := "Bronze", pointsRequired := 0, tradingFeeDiscount := some 0
      additionalBenefits := some ["Access to basic features"], icon := some "🥉" }).2
  let s5 := (createRewardsTier s4
    { name := "Silver", pointsRequired := 1000, tradingFeeDiscount := some 0.1
      additionalBenefits := some ["10% trading fee discount", "Priority support"]
      icon := some "🥈" }).2
  let s6 := (createRewardsTier s5
    { name := "Gold", pointsRequired := 5000, tradingFeeDiscount := some 0.2
      additionalBenefits :=
        some ["20% trading fee discount", "Priority support",
              "Early access to new features"]
      icon := some "🥇" }).2
  let s7 := (createRewardsTier s6
    { name := "Platinum", pointsRequired := 10000, tradingFeeDiscount := some 0.3
      additionalBenefits :=
        some ["30% trading fee discount", "VIP support",
              "Early access to new features", "Exclusive airdrops"]
      icon := some "💎" }).2
  s7

/-! ### Operation language: one constructor per mutating public method of
`MemStorage`, used to express "after any sequence of store operations". -/
/-- A mutating store operation, with all its run-time inputs (`new Date()`
instants and the random reset token included as explicit data). -/
inductive Op where
  | opCreateUser (now : Nat) (x : InsertUser)
  | opUpdateUser (now : Nat) (id : Nat) (d : UserPatch)
  | opVerifyUser (now : Nat) (token : String)
  | opResetPassword (now : Nat) (token : String) (newPassword : String)
  | opGenerateResetToken (now : Nat) (email : String) (token : String)
  | opCreateTradingPair (x : InsertTradingPair)
  | opUpdateTradingPair (id : Nat) (d : TradingPairPatch)
  | opCreateOrder (now : Nat) (x : InsertOrder)
  | opUpdateOrder (now : Nat) (id : Nat) (d : OrderPatch)
  | opCreateTrade (now : Nat) (x : InsertTrade)
  | opCreateRewardsEvent (now : Nat) (x : InsertRewardsEvent)
  | opCreateRewardsTier (x : InsertRewardsTier)
  | opCreateNewsArticle (x : InsertNewsArticle)
  | opUpdateNewsArticle (id : Nat) (d : NewsArticlePatch)
  | opCreateSubscriber (now : Nat) (x : InsertSubscriber)
  | opUnsubscribe (email : String)

/-- The state transition of one operation (the method's return value is
dropped). -/
def applyOp (s : Store) : Op → Store
  | .opCreateUser now x => (createUser s now x).2
  | .opUpdateUser now id d => (updateUser s now id d).2
  | .opVerifyUser now token => (verifyUser s now token).2
  | .opResetPassword now token newPassword => (resetPassword s now token newPassword).2
  | .opGenerateResetToken now email token => (generateResetToken s now email token).2
  | .opCreateTradingPair x => (createTradingPair s x).2
  | .opUpdateTradingPair id d => (updateTradingPair s id d).2
  | .opCreateOrder now x => (createOrder s now x).2
  | .opUpdateOrder now id d => (updateOrder s now id d).2
  | .opCreateTrade now x => (createTrade s now x).2
  | .opCreateRewardsEvent now x => (createRewardsEvent s now x).2
  | .opCreateRewardsTier x => (createRewardsTier s x).2
  | .opCreateNewsArticle x => (createNewsArticle s x).2
  | .opUpdateNewsArticle id d => (updateNewsArticle s id d).2
  | .opCreateSubscriber now x => (createSubscriber s now x).2
  | .opUnsubscribe email => (unsubscribe s email).2

/-- Run a sequence of operations from a starting store. -/
def applyOps (s : Store) : List Op → Store
  | [] => s
  | op :: ops => applyOps (applyOp s op) ops

/-- Run a sequence, checking a per-step side condition in the state the
step is applied in. -/
def runSafe (g : Store → Op → Bool) : Store → List Op → Bool
  | _, [] => true
  | s, op :: ops => g s op && runSafe g (applyOp s op) ops

/-- Side condition for the rewards-points invariant: every rewards event is
created for a user that exists, and no raw `updateUser` writes the
`rewardsPoints` or `id` field directly (the storage API lets callers patch
any field, which trivially breaks any derived-sum invariant). -/
def rewardsSafe (s : Store) : Op → Bool
  | .opCreateRewardsEvent _ x => (getUser s x.userId).isSome
  | .opUpdateUser _ _ d => d.rewardsPoints.isNone && d.id.isNone
  | _ => true

/-- `a` fits into the remaining capacity of an (optional) order: the side
condition under which `createTrade` cannot over-fill a Limit order.  Market
orders and non-positive-amount orders are not constrained (they are outside
the fill/status invariant). -/
def tradeFitsOrder (a : Int) : Option Order → Bool
  | none => true
  | some o =>
    o.type == "Market" || decide (o.amount ≤ 0) || decide (a ≤ o.amount - o.filled)

/-- Side condition for the order fill/status invariant: the run consists of
`createOrder` and `createTrade` steps only, and every trade fits into both
referenced orders. -/
def orderSafe (s : Store) : Op → Bool
  | .opCreateOrder _ _ => true
  | .opCreateTrade _ x =>
    tradeFitsOrder x.amount (getOrder s x.buyOrderId) &&
      tradeFitsOrder x.amount (getOrder s x.sellOrderId)
  | _ => false

/-- Sum of `points` over all stored rewards events whose `userId` is the
given one. -/
def sumPoints (events : List (Nat × RewardsEvent)) (userId : Nat) : Int :=
  (((mapValues events).filter (fun e => e.userId == userId)).map
    RewardsEvent.points).sum

/-! ### Well-formedness of the entity maps.  `MemStorage` maintains these by
construction (keys are the auto-assigned ids); they are stated explicitly
because the Lean model quantifies over arbitrary store values. -/
/-- Keys are pairwise distinct and each record's `id` field equals its key. -/
def WFmap {α : Type} (gid : α → Nat) (m : List (Nat × α)) : Prop :=
  (m.map Prod.fst).Nodup ∧ ∀ p ∈ m, gid p.2 = p.1

instance {α : Type} (gid : α → Nat) (m : List (Nat × α)) :
    Decidable (WFmap gid m) := by
  unfold WFmap; exact instDecidableAnd

/-- All keys of the map are below the id counter. -/
def keysBelow {α : Type} (m : List (Nat × α)) (c : Nat) : Prop :=
  ∀ p ∈ m, p.1 < c

instance {α : Type} (m : List (Nat × α)) (c : Nat) : Decidable (keysBelow m c) :=
  List.decidableBAll _ m

/-! ### The stable descending tier sort -/
/-- Sortedness by `pointsRequired`, descending. -/
def SortedDesc (l : List RewardsTier) : Prop :=
  l.Pairwise (fun a b => b.pointsRequired ≤ a.pointsRequired)

/-- The record an existing order becomes when a trade of amount `a` is
applied to it: `filled += a`, status recomputed, `updatedAt` restamped. -/
def tradeFill (o : Order) (a : Int) (now : Nat) : Order :=
  { o with filled := o.filled + a
           status := if o.filled + a ≥ o.amount then "Filled" else "Partial"
           updatedAt := now }

/-- The record an existing user becomes when a trade's `totalValue` is added
to their volume. -/
def volAdd (u : User) (tv : Int) (now : Nat) : User :=
  { u with totalTradingVolume := u.totalTradingVolume + tv, updatedAt := now }

/-- Concrete store for the C6 witness: one user, nothing else. -/
def c6User : User :=
  { id := 1, username := "alice", email := "alice@x.com", password := "pw123456",
    referralCode := some "ALICE1" }

/-- Concrete store for the C6 witness. -/
def c6Store : Store := { users := [(1, c6User)] }

/-- Concrete user for the C10 witness. -/
def c10User : User :=
  { id := 1, username := "bob", email := "bob@x.com", password := "pw",
    verificationToken := some "VT" }

/-- Concrete store for the C10 witness. -/
def c10Store : Store := { users := [(1, c10User)] }

/-- Concrete user for the C5 witness: token `"T"` expiring at instant 10. -/
def c5User : User :=
  { id := 1, username := "carol", email := "carol@x.com", password := "old",
    resetPasswordToken := some "T", resetPasswordExpires := some 10 }

/-- Concrete store for the C5 witness. -/
def c5Store : Store := { users := [(1, c5User)] }

/-- Concrete subscriber for the C8 witness. -/
def c8Sub : Subscriber := { id := 1, email := "bob@x.com", subscribedAt := 0 }

/-- Concrete store for the C8 witness. -/
def c8Store : Store := { subscribers := [(1, c8Sub)] }

/-- Concrete user for the C9 witness. -/
def c9User : User :=
  { id := 1, username := "dave", email := "dave@x.com", password := "pw" }

/-- Concrete store for the C9 witness. -/
def c9Store : Store := { users := [(1, c9User)] }

/-- The C9 witness store after two token generations for the same email. -/
@[reducible] def c9S2 : Store :=
  (generateResetToken (generateResetToken c9Store 1 "dave@x.com" "A").2
    2 "dave@x.com" "B").2

/-- Store for the C4 witness and counterexample: the seeded store, one user,
one rewards event of −1 points (the rewards API accepts negative points), so
no tier's threshold is met. -/
def c4Store : Store :=
  applyOps initStore
    [Op.opCreateUser 0 { username := "eve", email := "eve@x.com", password := "pw" },
     Op.opCreateRewardsEvent 0
       { userId := 1, eventType := "Adjustment", points := -1, description := "d" }]

/-- Concrete user for the C4 witness. -/
def c4User : User :=
  { id := 1, username := "eve", email := "eve@x.com", password := "pw",
    rewardsPoints := 150 }

/-- Store for the C3 counterexample: the seeded store plus one user and one
Limit order of that user (reached through the public operations). -/
def c3Store : Store :=
  applyOps initStore
    [Op.opCreateUser 0 { username := "frank", email := "frank@x.com", password := "pw" },
     Op.opCreateOrder 0 { userId := 1, tradingPairId := 1, type := "Limit",
                          side := "Buy", price := some 5, amount := 1000 }]

/-- The self-trade used in the C3 counterexample: both sides reference
order 1. -/
def c3Trade : InsertTrade :=
  { buyOrderId := 1, sellOrderId := 1, tradingPairId := 1, price := 5,
    amount := 10, totalValue := 50, fee := 0 }

/-- Concrete data for the C3 witness: two users, two Limit orders. -/
def c3wU1 : User := { id := 1, username := "gina", email := "gina@x.com", password := "pw" }

/-- Second user for the C3 witness. -/
def c3wU2 : User := { id := 2, username := "hank", email := "hank@x.com", password := "pw" }

/-- Buy order for the C3 witness. -/
def c3wO1 : Order :=
  { id := 1, userId := 1, tradingPairId := 1, type := "Limit", side := "Buy",
    amount := 1000, filled := 0, status := "Open" }

/-- Sell order for the C3 witness. -/
def c3wO2 : Order :=
  { id := 2, userId := 2, tradingPairId := 1, type := "Limit", side := "Sell",
    amount := 1000, filled := 0, status := "Open" }

/-- Store for the C3 witness. -/
def c3wStore : Store :=
  { users := [(1, c3wU1), (2, c3wU2)], orders := [(1, c3wO1), (2, c3wO2)] }

/-- Trade for the C3 witness. -/
def c3wTrade : InsertTrade :=
  { buyOrderId := 1, sellOrderId := 2, tradingPairId := 1, price := 5,
    amount := 10, totalValue := 50, fee := 0 }

/-! ## The order fill/status invariant (C2) -/
/-- The C2 invariant: every stored non-Market order with positive amount is
not over-filled and carries status `"Filled"` exactly when full. -/
def OrderFillInv (s : Store) : Prop :=
  ∀ k o, mapGet s.orders k = some o → o.type ≠ "Market" → 0 < o.amount →
    o.filled ≤ o.amount ∧ (o.status = "Filled" ↔ o.amount ≤ o.filled)

/-- Structural well-formedness of the orders map, maintained by the store:
unique keys equal to the records' ids, all below the order counter. -/
def OrdersWF (s : Store) : Prop :=
  WFmap Order.id s.orders ∧ keysBelow s.orders s.orderCurrentId

/-- Store for the C2 counterexample: a Market order (id 1), a Limit order of
amount 100 (id 2) over-filled by a self-trade of amount 150, and a Limit
order of amount 0 (id 3). -/
def c2Store : Store :=
  applyOps initStore
    [Op.opCreateOrder 0 { userId := 1, tradingPairId := 1, type := "Market",
                          side := "Buy", price := none, amount := 500 },
     Op.opCreateOrder 0 { userId := 1, tradingPairId := 1, type := "Limit",
                          side := "Buy", price := some 5, amount := 100 },
     Op.opCreateTrade 0 { buyOrderId := 2, sellOrderId := 2, tradingPairId := 1,
                          price := 5, amount := 150, totalValue := 750, fee := 0 },
     Op.opCreateOrder 0 { userId := 1, tradingPairId := 1, type := "Limit",
                          side := "Sell", price := some 5, amount := 0 }]

/-- Operations for the C2 witness: one Limit order filled by two fitting
trades. -/
def c2wOps : List Op :=
  [Op.opCreateOrder 0 { userId := 1, tradingPairId := 1, type := "Limit",
                        side := "Buy", price := some 5, amount := 100 },
   Op.opCreateTrade 0 { buyOrderId := 1, sellOrderId := 1, tradingPairId := 1,
                        price := 5, amount := 60, totalValue := 300, fee := 0 },
   Op.opCreateTrade 0 { buyOrderId := 1, sellOrderId := 1, tradingPairId := 1,
                        price := 5, amount := 40, totalValue := 200, fee := 0 }]

/-- The order stored at id 1 after running the C2 witness operations. -/
def c2wOrder : Order :=
  { id := 1, userId := 1, tradingPairId := 1, type := "Limit", side := "Buy",
    price := some 5, amount := 100, filled := 100, status := "Filled",
    createdAt := 0, updatedAt := 0 }

/-! ## C1: rewards points equal the sum of rewards-event points -/
/-- The users map is well formed: distinct keys equal to the records' id
fields, all below the id counter.  `MemStorage` maintains this by
construction. -/
def UsersWF (s : Store) : Prop :=
  WFmap User.id s.users ∧ keysBelow s.users s.userCurrentId

/-- Invariant backing the C1 claim: well-formed users map, rewards-event keys
below their counter, every stored event referencing an existing user, and
every stored user's `rewardsPoints` equal to the sum of their events'
points. -/
def RewardsInv (s : Store) : Prop :=
  UsersWF s ∧
  keysBelow s.rewardsEvents s.rewardsEventCurrentId ∧
  (∀ e ∈ mapValues s.rewardsEvents, (mapGet s.users e.userId).isSome = true) ∧
  (∀ p ∈ s.users, p.2.rewardsPoints = sumPoints s.rewardsEvents p.2.id)

/-- Store exhibiting the failure of the unrestricted C1 claim: a rewards
event created for the not-yet-existing user id 1 dangles, and the next
`createUser` takes id 1 with `rewardsPoints` 0. -/
def c1Store : Store :=
  applyOps initStore
    [Op.opCreateRewardsEvent 0 { userId := 1, eventType := "Signup",
                                 points := 10, description := "dangling" },
     Op.opCreateUser 0 { username := "alice", email := "alice@example.com",
                         password := "pw123456" }]

/-- Operations for the C1 witness: a user, then a rewards event for them. -/
def c1wOps : List Op :=
  [Op.opCreateUser 0 { username := "alice", email := "alice@example.com",
                       password := "pw123456" },
   Op.opCreateRewardsEvent 0 { userId := 1, eventType := "Trade",
                               points := 150, description := "welcome bonus" }]

/-- The user stored at id 1 after running the C1 witness operations. -/
def c1wUser : User :=
  { id := 1, username := "alice", email := "alice@example.com",
    password := "pw123456", createdAt := 0, updatedAt := 0,
    rewardsPoints := 150,
    referralCode := some (("alice".take 5).toUpper ++ toString 1) }

/-- A user for the third C1 conjunct. -/
def c1wU : User :=
  { id := 7, username := "bob", email := "bob@example.com",
    password := "pw123456", rewardsPoints := 40 }

/-- A one-user store for the third C1 conjunct. -/
def c1wStore : Store := { users := [(7, c1wU)], userCurrentId := 8 }

/-- The rewards event used against `c1wStore` in the C1 witness. -/
def c1wEvent : InsertRewardsEvent :=
  { userId := 7, eventType := "Trade", points := 60, description := "bonus" }

/-! ## Generic lemmas about the JS-`Map` model -/
theorem mapHas_iff {α : Type} {m : List (Nat × α)} {k : Nat} :
    mapHas m k = true ↔ ∃ p ∈ m, p.1 = k := by
  simp [mapHas]

theorem mapHas_eq_false {α : Type} {m : List (Nat × α)} {k : Nat}
    (h : mapHas m k = false) : ∀ p ∈ m, p.1 ≠ k := by
  simpa [mapHas] using h

theorem fst_ite_set {α : Type} (k : Nat) (v : α) (p : Nat × α) :
    (if p.1 == k then (k, v) else p).1 = p.1 := by
  by_cases h : p.1 = k
  · simp [h]
  · simp [h]

theorem keys_mapSet {α : Type} (m : List (Nat × α)) (k : Nat) (v : α) :
    (mapSet m k v).map Prod.fst =
      if mapHas m k then m.map Prod.fst else m.map Prod.fst ++ [k] := by
  unfold mapSet
  by_cases h : mapHas m k
  · simp only [h, if_true, List.map_map]
    exact List.map_congr_left (fun p _ => fst_ite_set k v p)
  · simp [h]

theorem mapGet_mapSet_self {α : Type} (m : List (Nat × α)) (k : Nat) (v : α) :
    mapGet (mapSet m k v) k = some v := by
  unfold mapGet mapSet
  by_cases h : mapHas m k
  · simp only [h, if_true, List.find?_map]
    have hcomp : ((fun p : Nat × α => p.1 == k) ∘
        fun p => if p.1 == k then (k, v) else p) = fun p : Nat × α => p.1 == k := by
      funext p
      by_cases hpk : p.1 = k <;> simp [hpk]
    rw [hcomp]
    obtain ⟨p₀, hmem, hkey⟩ := mapHas_iff.1 h
    have hsome : (m.find? (fun p : Nat × α => p.1 == k)).isSome :=
      List.find?_isSome.2 ⟨p₀, hmem, by simp [hkey]⟩
    obtain ⟨q, hq⟩ := Option.isSome_iff_exists.1 hsome
    have hqk : q.1 = k := by simpa using List.find?_some hq
    simp [hq, hqk]
  · have h' : mapHas m k = false := by simpa using h
    rw [if_neg h, List.find?_append]
    have hnone : m.find? (fun p : Nat × α => p.1 == k) = none :=
      List.find?_eq_none.2 (fun p hp => by simp [mapHas_eq_false h' p hp])
    simp [hnone]

theorem mapGet_mapSet_ne {α : Type} (m : List (Nat × α)) {k k' : Nat} (v : α)
    (hne : k' ≠ k) : mapGet (mapSet m k v) k' = mapGet m k' := by
  unfold mapGet mapSet
  by_cases h : mapHas m k
  · simp only [h, if_true, List.find?_map]
    have hcomp : ((fun p : Nat × α => p.1 == k') ∘
        fun p => if p.1 == k then (k, v) else p) = fun p : Nat × α => p.1 == k' := by
      funext p
      by_cases hpk : p.1 = k
      · simp [hpk, Ne.symm hne, (by simpa [hpk] using hne.symm : ¬ (p.1 = k'))]
      · simp [hpk]
    rw [hcomp]
    cases hfind : m.find? (fun p : Nat × α => p.1 == k') with
    | none => simp
    | some q =>
      have hqk : q.1 = k' := by simpa using List.find?_some hfind
      have hqne : ¬ (q.1 = k) := by rw [hqk]; exact hne
      simp [hqne]
  · rw [if_neg h, List.find?_append]
    cases hfind : m.find? (fun p : Nat × α => p.1 == k') with
    | none => simp [Ne.symm hne]
    | some q => simp

theorem mapGet_isSome_mapSet {α : Type} (m : List (Nat × α)) (k k' : Nat) (v : α)
    (h : (mapGet m k').isSome) : (mapGet (mapSet m k v) k').isSome := by
  by_cases hkk : k' = k
  · subst hkk; simp [mapGet_mapSet_self]
  · rwa [mapGet_mapSet_ne m v hkk]

theorem mapGet_eq_some_mem {α : Type} {m : List (Nat × α)} {k : Nat} {u : α}
    (h : mapGet m k = some u) : (k, u) ∈ m := by
  unfold mapGet at h
  obtain ⟨q, hq, hqu⟩ := Option.map_eq_some'.1 h
  have hqk : q.1 = k := by simpa using List.find?_some hq
  have := List.mem_of_find?_eq_some hq
  have hq' : q = (k, u) := by
    cases q; simp_all
  rwa [hq'] at this

theorem mapHas_of_mapGet {α : Type} {m : List (Nat × α)} {k : Nat} {u : α}
    (h : mapGet m k = some u) : mapHas m k = true :=
  mapHas_iff.2 ⟨(k, u), mapGet_eq_some_mem h, rfl⟩

theorem mem_values_of_mapGet {α : Type} {m : List (Nat × α)} {k : Nat} {u : α}
    (h : mapGet m k = some u) : u ∈ mapValues m := by
  unfold mapValues
  exact List.mem_map.2 ⟨(k, u), mapGet_eq_some_mem h, rfl⟩

theorem mem_values_mapSet {α : Type} {m : List (Nat × α)} {k : Nat} {v w : α}
    (hw : w ∈ mapValues (mapSet m k v)) :
    w = v ∨ ∃ p ∈ m, p.1 ≠ k ∧ p.2 = w := by
  unfold mapValues mapSet at hw
  by_cases h : mapHas m k
  · rw [if_pos h, List.map_map] at hw
    obtain ⟨p, hp, hpw⟩ := List.mem_map.1 hw
    by_cases hpk : p.1 = k
    · left; simp [hpk] at hpw; exact hpw.symm
    · right; refine ⟨p, hp, hpk, ?_⟩; simpa [hpk] using hpw
  · have h' : mapHas m k = false := by simpa using h
    rw [if_neg h, List.map_append] at hw
    rcases List.mem_append.1 hw with hw | hw
    · obtain ⟨p, hp, hpw⟩ := List.mem_map.1 hw
      exact Or.inr ⟨p, hp, mapHas_eq_false h' p hp, hpw⟩
    · left; simpa using hw

theorem values_mapSet_of_not_has {α : Type} {m : List (Nat × α)} {k : Nat} (v : α)
    (h : mapHas m k = false) :
    mapValues (mapSet m k v) = mapValues m ++ [v] := by
  simp [mapSet, mapValues, h]

theorem WFmap_mapSet {α : Type} {gid : α → Nat} {m : List (Nat × α)} {k : Nat}
    {v : α} (h : WFmap gid m) (hv : gid v = k) : WFmap gid (mapSet m k v) := by
  constructor
  · rw [keys_mapSet]
    by_cases hk : mapHas m k
    · simpa [hk] using h.1
    · have hk' : mapHas m k = false := by simpa using hk
      have hnot : k ∉ m.map Prod.fst := by
        simp only [List.mem_map, not_exists]
        rintro p ⟨hp, hpk⟩
        exact mapHas_eq_false hk' p hp hpk
      simp [hk, List.nodup_append, h.1, hnot]
  · intro p hp
    unfold mapSet at hp
    by_cases hk : mapHas m k
    · rw [if_pos hk] at hp
      obtain ⟨q, hq, hqp⟩ := List.mem_map.1 hp
      by_cases hqk : q.1 = k
      · rw [← hqp]; simp [hqk, hv]
      · rw [← hqp]; simpa [hqk] using h.2 q hq
    · rw [if_neg hk] at hp
      rcases List.mem_append.1 hp with hp | hp
      · exact h.2 p hp
      · simp at hp; rw [hp]; exact hv

theorem keysBelow_mapSet {α : Type} {m : List (Nat × α)} {c k : Nat} {v : α}
    (h : keysBelow m c) (hk : k < c) : keysBelow (mapSet m k v) c := by
  intro p hp
  unfold mapSet at hp
  by_cases hhas : mapHas m k
  · rw [if_pos hhas] at hp
    obtain ⟨q, hq, hqp⟩ := List.mem_map.1 hp
    rw [← hqp, fst_ite_set]
    exact h q hq
  · rw [if_neg hhas] at hp
    rcases List.mem_append.1 hp with hp | hp
    · exact h p hp
    · simp at hp; rw [hp]; exact hk

theorem keysBelow_mono {α : Type} {m : List (Nat × α)} {c c' : Nat}
    (h : keysBelow m c) (hcc : c ≤ c') : keysBelow m c' :=
  fun p hp => lt_of_lt_of_le (h p hp) hcc

theorem WFmap_gid_of_mapGet {α : Type} {gid : α → Nat} {m : List (Nat × α)}
    {k : Nat} {u : α} (h : WFmap gid m) (hget : mapGet m k = some u) :
    gid u = k :=
  h.2 (k, u) (mapGet_eq_some_mem hget)

theorem mapGet_of_mem_values {α : Type} {gid : α → Nat} {m : List (Nat × α)}
    {u : α} (h : WFmap gid m) (hu : u ∈ mapValues m) :
    mapGet m (gid u) = some u := by
  induction m with
  | nil => simp [mapValues] at hu
  | cons q t ih =>
    have hu' : u = q.2 ∨ u ∈ mapValues t := by simpa [mapValues] using hu
    have hwf_t : WFmap gid t :=
      ⟨(List.nodup_cons.1 h.1).2, fun r hr => h.2 r (List.mem_cons_of_mem q hr)⟩
    rcases hu' with hq | ht
    · have hgid : gid u = q.1 := by rw [hq]; exact h.2 q (List.mem_cons_self q t)
      unfold mapGet
      rw [List.find?_cons_of_pos _ (by simp [hgid])]
      simp [hq]
    · obtain ⟨p, hp, hpu⟩ := List.mem_map.1 ht
      have hgid : gid u = p.1 := by rw [← hpu]; exact h.2 p (List.mem_cons_of_mem q hp)
      have hq1 : ¬ ((q.1 == gid u) = true) := by
        simp only [beq_iff_eq]
        intro hcontra
        have hqin : q.1 ∈ t.map Prod.fst := by
          rw [hcontra, hgid]; exact List.mem_map.2 ⟨p, hp, rfl⟩
        exact (List.nodup_cons.1 h.1).1 hqin
      have hrec := ih hwf_t ht
      unfold mapGet at hrec ⊢
      rw [List.find?_cons_of_neg (p := fun r : Nat × α => r.1 == gid u) t hq1]
      exact hrec

theorem mapSet_cons_head {α : Type} (p : Nat × α) (t : List (Nat × α)) (v : α)
    (hnodup : ((p :: t).map Prod.fst).Nodup) :
    mapSet (p :: t) p.1 v = (p.1, v) :: t := by
  have hhas : mapHas (p :: t) p.1 = true :=
    mapHas_iff.2 ⟨p, List.mem_cons_self p t, rfl⟩
  unfold mapSet
  rw [if_pos hhas, List.map_cons]
  have h1 : (p.1 :: t.map Prod.fst).Nodup := by simpa using hnodup
  have hne : ∀ r ∈ t, r.1 ≠ p.1 := by
    intro r hr hctr
    exact (List.nodup_cons.1 h1).1 (List.mem_map.2 ⟨r, hr, hctr⟩)
  have htl : t.map (fun r => if r.1 == p.1 then (p.1, v) else r) = t := by
    calc t.map (fun r => if r.1 == p.1 then (p.1, v) else r)
        = t.map id := List.map_congr_left (fun r hr => by simp [hne r hr])
      _ = t := List.map_id t
  rw [htl]
  simp

theorem mapSet_cons_ne {α : Type} (p : Nat × α) (t : List (Nat × α)) {k : Nat}
    (v : α) (hk : k ≠ p.1) (hhas : mapHas t k = true) :
    mapSet (p :: t) k v = p :: mapSet t k v := by
  have hhas' : mapHas (p :: t) k = true := by
    obtain ⟨r, hr, hrk⟩ := mapHas_iff.1 hhas
    exact mapHas_iff.2 ⟨r, List.mem_cons_of_mem p hr, hrk⟩
  unfold mapSet
  rw [if_pos hhas', if_pos hhas, List.map_cons]
  have : ¬ ((p.1 == k) = true) := by simp; exact fun h => hk h.symm
  simp [this]

/-- If the first `q`-match among the values of a well-formed map is `u`,
then after overwriting `u`'s entry with a record `v` that still matches,
the first `q`-match is `v` (the entry keeps its position). -/
theorem find?_values_mapSet_found {α : Type} {gid : α → Nat}
    {m : List (Nat × α)} {q : α → Bool} {u : α} (v : α)
    (hwf : WFmap gid m)
    (hfind : (mapValues m).find? q = some u)
    (hv : q v = true) :
    (mapValues (mapSet m (gid u) v)).find? q = some v := by
  induction m with
  | nil => simp [mapValues] at hfind
  | cons p t ih =>
    have h1 : (p.1 :: t.map Prod.fst).Nodup := by simpa using hwf.1
    have hwf_t : WFmap gid t :=
      ⟨(List.nodup_cons.1 h1).2,
       fun r hr => hwf.2 r (List.mem_cons_of_mem p hr)⟩
    have hvals : mapValues (p :: t) = p.2 :: mapValues t := rfl
    by_cases hqp : q p.2 = true
    · have hu : u = p.2 := by
        rw [hvals, List.find?_cons_of_pos _ hqp] at hfind
        exact (Option.some_inj.1 hfind).symm
      have hgid : gid u = p.1 := by rw [hu]; exact hwf.2 p (List.mem_cons_self p t)
      rw [hgid, mapSet_cons_head p t v hwf.1]
      have : mapValues ((p.1, v) :: t) = v :: mapValues t := rfl
      rw [this, List.find?_cons_of_pos _ hv]
    · have hfind_t : (mapValues t).find? q = some u := by
        rw [hvals, List.find?_cons_of_neg _ hqp] at hfind
        exact hfind
      have hu_t : u ∈ mapValues t :=
        List.mem_of_find?_eq_some hfind_t
      have hkey_t : mapHas t (gid u) = true := by
        obtain ⟨r, hr, hru⟩ := List.mem_map.1 hu_t
        have : gid u = r.1 := by rw [← hru]; exact hwf_t.2 r hr
        exact mapHas_iff.2 ⟨r, hr, this.symm⟩
      have hne : gid u ≠ p.1 := by
        intro hctr
        obtain ⟨r, hr, hrk⟩ := mapHas_iff.1 hkey_t
        have : p.1 ∈ t.map Prod.fst := by
          rw [← hctr, ← hrk]; exact List.mem_map.2 ⟨r, hr, rfl⟩
        exact (List.nodup_cons.1 h1).1 this
      rw [mapSet_cons_ne p t v hne hkey_t]
      have : mapValues (p :: mapSet t (gid u) v) = p.2 :: mapValues (mapSet t (gid u) v) := rfl
      rw [this, List.find?_cons_of_neg _ hqp]
      exact ih hwf_t hfind_t

/-- After overwriting key `k` with a non-matching record, no value matches
`q` provided every match of the original map lived at key `k`. -/
theorem find?_values_mapSet_eq_none {α : Type} {m : List (Nat × α)}
    {k : Nat} {v : α} {q : α → Bool}
    (hv : q v = false)
    (honly : ∀ p ∈ m, q p.2 = true → p.1 = k) :
    (mapValues (mapSet m k v)).find? q = none := by
  apply List.find?_eq_none.2
  intro w hw
  rcases mem_values_mapSet hw with hwv | ⟨p, hp, hpk, hpw⟩
  · rw [hwv, hv]; simp
  · intro hqw
    exact hpk (honly p hp (by rwa [hpw]))

theorem mem_insertTierDesc {t x : RewardsTier} {l : List RewardsTier} :
    x ∈ insertTierDesc t l ↔ x = t ∨ x ∈ l := by
  induction l with
  | nil => simp [insertTierDesc]
  | cons u us ih =>
    unfold insertTierDesc
    by_cases h : u.pointsRequired ≤ t.pointsRequired
    · simp only [if_pos h, List.mem_cons]
    · simp only [if_neg h, List.mem_cons, ih]
      tauto

theorem sortedDesc_insertTierDesc {t : RewardsTier} {l : List RewardsTier}
    (h : SortedDesc l) : SortedDesc (insertTierDesc t l) := by
  induction l with
  | nil => simp [insertTierDesc, SortedDesc]
  | cons u us ih =>
    unfold insertTierDesc
    rcases List.pairwise_cons.1 h with ⟨hu, hus⟩
    by_cases hcmp : u.pointsRequired ≤ t.pointsRequired
    · rw [if_pos hcmp]
      refine List.pairwise_cons.2 ⟨?_, h⟩
      intro b hb
      rcases List.mem_cons.1 hb with hb | hb
      · rw [hb]; exact hcmp
      · exact le_trans (hu b hb) hcmp
    · rw [if_neg hcmp]
      refine List.pairwise_cons.2 ⟨?_, ih hus⟩
      intro b hb
      rcases mem_insertTierDesc.1 hb with hb | hb
      · rw [hb]; exact le_of_lt (lt_of_not_le hcmp)
      · exact hu b hb

theorem mem_sortTiersDesc {x : RewardsTier} {l : List RewardsTier} :
    x ∈ sortTiersDesc l ↔ x ∈ l := by
  induction l with
  | nil => simp [sortTiersDesc]
  | cons t ts ih =>
    unfold sortTiersDesc
    rw [mem_insertTierDesc, ih, List.mem_cons]

theorem sortedDesc_sortTiersDesc (l : List RewardsTier) :
    SortedDesc (sortTiersDesc l) := by
  induction l with
  | nil => simp [sortTiersDesc, SortedDesc]
  | cons t ts ih =>
    unfold sortTiersDesc
    exact sortedDesc_insertTierDesc ih

/-- On a descending-sorted list, the first tier whose threshold is met has
the greatest threshold among all qualifying tiers. -/
theorem find?_sortedDesc_max {l : List RewardsTier} {pts : Int} {r : RewardsTier}
    (hs : SortedDesc l)
    (hfind : l.find? (fun t => t.pointsRequired ≤ pts) = some r) :
    r.pointsRequired ≤ pts ∧
      ∀ t ∈ l, t.pointsRequired ≤ pts → t.pointsRequired ≤ r.pointsRequired := by
  constructor
  · simpa using List.find?_some hfind
  · induction l with
    | nil => cases hfind
    | cons u us ih =>
      rcases List.pairwise_cons.1 hs with ⟨hu, hus⟩
      by_cases hq : u.pointsRequired ≤ pts
      · have hru : r = u := by
          rw [List.find?_cons_of_pos _ (by simpa using hq)] at hfind
          exact (Option.some_inj.1 hfind).symm
        intro t ht _
        rcases List.mem_cons.1 ht with ht | ht
        · rw [ht, hru]
        · rw [hru]; exact hu t ht
      · rw [List.find?_cons_of_neg _ (by simpa using hq)] at hfind
        intro t ht hqt
        rcases List.mem_cons.1 ht with ht | ht
        · exact absurd (ht ▸ hqt) hq
        · exact ih hus hfind t ht hqt

/-- The head of a descending-sorted list has the greatest threshold. -/
theorem head_sortedDesc_max {l : List RewardsTier} {r : RewardsTier}
    (hs : SortedDesc l) (hh : l.head? = some r) :
    r ∈ l ∧ ∀ t ∈ l, t.pointsRequired ≤ r.pointsRequired := by
  cases l with
  | nil => cases hh
  | cons u us =>
    have hru : r = u := (Option.some_inj.1 (by simpa using hh)).symm
    subst hru
    refine ⟨List.mem_cons_self r us, ?_⟩
    intro t ht
    rcases List.mem_cons.1 ht with ht | ht
    · rw [ht]
    · exact (List.pairwise_cons.1 hs).1 t ht

/-! ### Unfolding equations for the conditional operations -/
theorem updateUser_none {s : Store} {id : Nat} (now : Nat) (d : UserPatch)
    (h : getUser s id = none) : updateUser s now id d = (none, s) := by
  unfold updateUser; rw [h]

theorem updateUser_some {s : Store} {id : Nat} {u : User} (now : Nat) (d : UserPatch)
    (h : getUser s id = some u) :
    updateUser s now id d =
      (some { applyUserPatch u d with updatedAt := now },
       { s with users := mapSet s.users id { applyUserPatch u d with updatedAt := now } }) := by
  unfold updateUser; rw [h]

theorem updateOrder_none {s : Store} {id : Nat} (now : Nat) (d : OrderPatch)
    (h : getOrder s id = none) : updateOrder s now id d = (none, s) := by
  unfold updateOrder; rw [h]

theorem updateOrder_some {s : Store} {id : Nat} {o : Order} (now : Nat) (d : OrderPatch)
    (h : getOrder s id = some o) :
    updateOrder s now id d =
      (some { applyOrderPatch o d with updatedAt := now },
       { s with orders := mapSet s.orders id { applyOrderPatch o d with updatedAt := now } }) := by
  unfold updateOrder; rw [h]

theorem updateTradingPair_none {s : Store} {id : Nat} (d : TradingPairPatch)
    (h : getTradingPair s id = none) : updateTradingPair s id d = (none, s) := by
  unfold updateTradingPair; rw [h]

theorem updateTradingPair_some {s : Store} {id : Nat} {p : TradingPair}
    (d : TradingPairPatch) (h : getTradingPair s id = some p) :
    updateTradingPair s id d =
      (some (applyTradingPairPatch p d),
       { s with tradingPairs := mapSet s.tradingPairs id (applyTradingPairPatch p d) }) := by
  unfold updateTradingPair; rw [h]

theorem updateNewsArticle_none {s : Store} {id : Nat} (d : NewsArticlePatch)
    (h : getNewsArticle s id = none) : updateNewsArticle s id d = (none, s) := by
  unfold updateNewsArticle; rw [h]

theorem updateNewsArticle_some {s : Store} {id : Nat} {a : NewsArticle}
    (d : NewsArticlePatch) (h : getNewsArticle s id = some a) :
    updateNewsArticle s id d =
      (some (applyNewsArticlePatch a d),
       { s with newsArticles := mapSet s.newsArticles id (applyNewsArticlePatch a d) }) := by
  unfold updateNewsArticle; rw [h]

theorem verifyUser_none {s : Store} {token : String} (now : Nat)
    (h : (mapValues s.users).find? (fun u => u.verificationToken == some token) = none) :
    verifyUser s now token = (none, s) := by
  unfold verifyUser; rw [h]

theorem verifyUser_some {s : Store} {token : String} {u : User} (now : Nat)
    (h : (mapValues s.users).find? (fun u => u.verificationToken == some token) = some u) :
    verifyUser s now token =
      (some { u with isVerified := true, verificationToken := none, updatedAt := now },
       { s with users := (mapSet s.users u.id
          { u with isVerified := true, verificationToken := none, updatedAt := now }) }) := by
  unfold verifyUser; rw [h]

theorem resetPassword_none {s : Store} {token newPassword : String} (now : Nat)
    (h : (mapValues s.users).find? (fun u => resetTokenLive u token now) = none) :
    resetPassword s now token newPassword = (false, s) := by
  unfold resetPassword; rw [h]

theorem resetPassword_some {s : Store} {token newPassword : String} {u : User}
    (now : Nat)
    (h : (mapValues s.users).find? (fun u => resetTokenLive u token now) = some u) :
    resetPassword s now token newPassword =
      (true,
       { s with users := (mapSet s.users u.id
          { u with password := newPassword, resetPasswordToken := none,
                   resetPasswordExpires := none, updatedAt := now }) }) := by
  unfold resetPassword; rw [h]

theorem generateResetToken_none {s : Store} {email token : String} (now : Nat)
    (h : getUserByEmail s email = none) :
    generateResetToken s now email token = (none, s) := by
  unfold generateResetToken; rw [h]

theorem generateResetToken_some {s : Store} {email token : String} {u : User}
    (now : Nat) (h : getUserByEmail s email = some u) :
    generateResetToken s now email token =
      (some token,
       { s with users := (mapSet s.users u.id
          { u with resetPasswordToken := some token,
                   resetPasswordExpires := some (now + oneHourMs),
                   updatedAt := now }) }) := by
  unfold generateResetToken; rw [h]

theorem unsubscribe_none {s : Store} {email : String}
    (h : getSubscriberByEmail s email = none) : unsubscribe s email = (false, s) := by
  unfold unsubscribe; rw [h]

theorem unsubscribe_some {s : Store} {email : String} {sub : Subscriber}
    (h : getSubscriberByEmail s email = some sub) :
    unsubscribe s email =
      (true,
       { s with subscribers := mapSet s.subscribers sub.id { sub with isActive := false } }) := by
  unfold unsubscribe; rw [h]

/-! ### Frame lemmas: which store components each operation leaves alone -/
theorem updateUser_frame (s : Store) (now id : Nat) (d : UserPatch) :
    ((updateUser s now id d).2).orders = s.orders ∧
    ((updateUser s now id d).2).trades = s.trades ∧
    ((updateUser s now id d).2).rewardsEvents = s.rewardsEvents ∧
    ((updateUser s now id d).2).tradingPairs = s.tradingPairs ∧
    ((updateUser s now id d).2).newsArticles = s.newsArticles ∧
    ((updateUser s now id d).2).subscribers = s.subscribers ∧
    ((updateUser s now id d).2).rewardsTiers = s.rewardsTiers ∧
    ((updateUser s now id d).2).userCurrentId = s.userCurrentId ∧
    ((updateUser s now id d).2).orderCurrentId = s.orderCurrentId ∧
    ((updateUser s now id d).2).tradeCurrentId = s.tradeCurrentId ∧
    ((updateUser s now id d).2).rewardsEventCurrentId = s.rewardsEventCurrentId := by
  cases h : getUser s id with
  | none => rw [updateUser_none now d h]; exact ⟨rfl, rfl, rfl, rfl, rfl, rfl, rfl, rfl, rfl, rfl, rfl⟩
  | some u => rw [updateUser_some now d h]; exact ⟨rfl, rfl, rfl, rfl, rfl, rfl, rfl, rfl, rfl, rfl, rfl⟩

theorem updateOrder_frame (s : Store) (now id : Nat) (d : OrderPatch) :
    ((updateOrder s now id d).2).users = s.users ∧
    ((updateOrder s now id d).2).trades = s.trades ∧
    ((updateOrder s now id d).2).rewardsEvents = s.rewardsEvents ∧
    ((updateOrder s now id d).2).tradingPairs = s.tradingPairs ∧
    ((updateOrder s now id d).2).newsArticles = s.newsArticles ∧
    ((updateOrder s now id d).2).subscribers = s.subscribers ∧
    ((updateOrder s now id d).2).rewardsTiers = s.rewardsTiers ∧
    ((updateOrder s now id d).2).userCurrentId = s.userCurrentId ∧
    ((updateOrder s now id d).2).orderCurrentId = s.orderCurrentId ∧
    ((updateOrder s now id d).2).tradeCurrentId = s.tradeCurrentId ∧
    ((updateOrder s now id d).2).rewardsEventCurrentId = s.rewardsEventCurrentId := by
  cases h : getOrder s id with
  | none => rw [updateOrder_none now d h]; exact ⟨rfl, rfl, rfl, rfl, rfl, rfl, rfl, rfl, rfl, rfl, rfl⟩
  | some o => rw [updateOrder_some now d h]; exact ⟨rfl, rfl, rfl, rfl, rfl, rfl, rfl, rfl, rfl, rfl, rfl⟩

@[simp] theorem updateUser_orders_eq (s : Store) (now id : Nat) (d : UserPatch) :
    ((updateUser s now id d).2).orders = s.orders := (updateUser_frame s now id d).1

@[simp] theorem updateUser_trades_eq (s : Store) (now id : Nat) (d : UserPatch) :
    ((updateUser s now id d).2).trades = s.trades := (updateUser_frame s now id d).2.1

@[simp] theorem updateUser_rewardsEvents_eq (s : Store) (now id : Nat) (d : UserPatch) :
    ((updateUser s now id d).2).rewardsEvents = s.rewardsEvents :=
  (updateUser_frame s now id d).2.2.1

@[simp] theorem updateUser_userCurrentId_eq (s : Store) (now id : Nat) (d : UserPatch) :
    ((updateUser s now id d).2).userCurrentId = s.userCurrentId :=
  (updateUser_frame s now id d).2.2.2.2.2.2.2.1

@[simp] theorem updateUser_tradeCurrentId_eq (s : Store) (now id : Nat) (d : UserPatch) :
    ((updateUser s now id d).2).tradeCurrentId = s.tradeCurrentId :=
  (updateUser_frame s now id d).2.2.2.2.2.2.2.2.2.1

@[simp] theorem updateUser_rewardsEventCurrentId_eq (s : Store) (now id : Nat)
    (d : UserPatch) :
    ((updateUser s now id d).2).rewardsEventCurrentId = s.rewardsEventCurrentId :=
  (updateUser_frame s now id d).2.2.2.2.2.2.2.2.2.2

@[simp] theorem updateOrder_users_eq (s : Store) (now id : Nat) (d : OrderPatch) :
    ((updateOrder s now id d).2).users = s.users := (updateOrder_frame s now id d).1

@[simp] theorem updateOrder_trades_eq (s : Store) (now id : Nat) (d : OrderPatch) :
    ((updateOrder s now id d).2).trades = s.trades := (updateOrder_frame s now id d).2.1

@[simp] theorem updateOrder_rewardsEvents_eq (s : Store) (now id : Nat) (d : OrderPatch) :
    ((updateOrder s now id d).2).rewardsEvents = s.rewardsEvents :=
  (updateOrder_frame s now id d).2.2.1

@[simp] theorem updateOrder_userCurrentId_eq (s : Store) (now id : Nat) (d : OrderPatch) :
    ((updateOrder s now id d).2).userCurrentId = s.userCurrentId :=
  (updateOrder_frame s now id d).2.2.2.2.2.2.2.1

@[simp] theorem updateOrder_tradeCurrentId_eq (s : Store) (now id : Nat) (d : OrderPatch) :
    ((updateOrder s now id d).2).tradeCurrentId = s.tradeCurrentId :=
  (updateOrder_frame s now id d).2.2.2.2.2.2.2.2.2.1

@[simp] theorem updateOrder_rewardsEventCurrentId_eq (s : Store) (now id : Nat)
    (d : OrderPatch) :
    ((updateOrder s now id d).2).rewardsEventCurrentId = s.rewardsEventCurrentId :=
  (updateOrder_frame s now id d).2.2.2.2.2.2.2.2.2.2

@[simp] theorem applyOrderFill_users (s : Store) (now : Nat) (a : Int)
    (ob : Option Order) : (applyOrderFill s now a ob).users = s.users := by
  cases ob with
  | none => rfl
  | some o => exact updateOrder_users_eq s now o.id _

@[simp] theorem applyOrderFill_trades (s : Store) (now : Nat) (a : Int)
    (ob : Option Order) : (applyOrderFill s now a ob).trades = s.trades := by
  cases ob with
  | none => rfl
  | some o => exact updateOrder_trades_eq s now o.id _

@[simp] theorem applyOrderFill_rewardsEvents (s : Store) (now : Nat) (a : Int)
    (ob : Option Order) :
    (applyOrderFill s now a ob).rewardsEvents = s.rewardsEvents := by
  cases ob with
  | none => rfl
  | some o => exact updateOrder_rewardsEvents_eq s now o.id _

@[simp] theorem applyOrderFill_tradeCurrentId (s : Store) (now : Nat) (a : Int)
    (ob : Option Order) :
    (applyOrderFill s now a ob).tradeCurrentId = s.tradeCurrentId := by
  cases ob with
  | none => rfl
  | some o => exact updateOrder_tradeCurrentId_eq s now o.id _

@[simp] theorem applyOrderFill_rewardsEventCurrentId (s : Store) (now : Nat)
    (a : Int) (ob : Option Order) :
    (applyOrderFill s now a ob).rewardsEventCurrentId = s.rewardsEventCurrentId := by
  cases ob with
  | none => rfl
  | some o => exact updateOrder_rewardsEventCurrentId_eq s now o.id _

@[simp] theorem applyOrderFill_userCurrentId (s : Store) (now : Nat) (a : Int)
    (ob : Option Order) :
    (applyOrderFill s now a ob).userCurrentId = s.userCurrentId := by
  cases ob with
  | none => rfl
  | some o => exact updateOrder_userCurrentId_eq s now o.id _

/-- `applyVolume` on a present order, unfolded one step. -/
theorem applyVolume_some (s : Store) (now : Nat) (tv : Int) (o : Order) :
    applyVolume s now tv (some o)
      = match getUser s o.userId with
        | none => s
        | some usr =>
          (updateUser s now usr.id
            { totalTradingVolume := some (usr.totalTradingVolume + tv) }).2 := rfl

@[simp] theorem applyVolume_orders (s : Store) (now : Nat) (tv : Int)
    (ob : Option Order) : (applyVolume s now tv ob).orders = s.orders := by
  cases ob with
  | none => rfl
  | some o =>
    rw [applyVolume_some]
    cases h : getUser s o.userId with
    | none => rfl
    | some usr => exact updateUser_orders_eq s now usr.id _

@[simp] theorem applyVolume_trades (s : Store) (now : Nat) (tv : Int)
    (ob : Option Order) : (applyVolume s now tv ob).trades = s.trades := by
  cases ob with
  | none => rfl
  | some o =>
    rw [applyVolume_some]
    cases h : getUser s o.userId with
    | none => rfl
    | some usr => exact updateUser_trades_eq s now usr.id _

@[simp] theorem applyVolume_rewardsEvents (s : Store) (now : Nat) (tv : Int)
    (ob : Option Order) :
    (applyVolume s now tv ob).rewardsEvents = s.rewardsEvents := by
  cases ob with
  | none => rfl
  | some o =>
    rw [applyVolume_some]
    cases h : getUser s o.userId with
    | none => rfl
    | some usr => exact updateUser_rewardsEvents_eq s now usr.id _

@[simp] theorem applyVolume_tradeCurrentId (s : Store) (now : Nat) (tv : Int)
    (ob : Option Order) :
    (applyVolume s now tv ob).tradeCurrentId = s.tradeCurrentId := by
  cases ob with
  | none => rfl
  | some o =>
    rw [applyVolume_some]
    cases h : getUser s o.userId with
    | none => rfl
    | some usr => exact updateUser_tradeCurrentId_eq s now usr.id _

@[simp] theorem applyVolume_rewardsEventCurrentId (s : Store) (now : Nat)
    (tv : Int) (ob : Option Order) :
    (applyVolume s now tv ob).rewardsEventCurrentId = s.rewardsEventCurrentId := by
  cases ob with
  | none => rfl
  | some o =>
    rw [applyVolume_some]
    cases h : getUser s o.userId with
    | none => rfl
    | some usr => exact updateUser_rewardsEventCurrentId_eq s now usr.id _

@[simp] theorem applyVolume_userCurrentId (s : Store) (now : Nat) (tv : Int)
    (ob : Option Order) :
    (applyVolume s now tv ob).userCurrentId = s.userCurrentId := by
  cases ob with
  | none => rfl
  | some o =>
    rw [applyVolume_some]
    cases h : getUser s o.userId with
    | none => rfl
    | some usr => exact updateUser_userCurrentId_eq s now usr.id _

/-- `applyOrderFill` on a present order, unfolded one step. -/
theorem applyOrderFill_some (s : Store) (now : Nat) (a : Int) (o : Order) :
    applyOrderFill s now a (some o)
      = (updateOrder s now o.id
          { filled := some (o.filled + a)
            status := some (if o.filled + a ≥ o.amount
                            then "Filled" else "Partial") }).2 := rfl

/-- `applyOrderFill` on a present stale-read order `o` whose id re-reads to
`o'`: the patch computed from `o` is merged into `o'`. -/
theorem applyOrderFill_some_eq {s : Store} {o o' : Order} (now : Nat) (a : Int)
    (hre : getOrder s o.id = some o') :
    applyOrderFill s now a (some o) =
      { s with orders := (mapSet s.orders o.id
          { o' with filled := o.filled + a
                    status := if o.filled + a ≥ o.amount then "Filled" else "Partial"
                    updatedAt := now }) } := by
  rw [applyOrderFill_some, updateOrder_some now _ hre]
  rfl

/-- `applyOrderFill` when the re-read returns the same record. -/
theorem applyOrderFill_fresh {s : Store} {o : Order} (now : Nat) (a : Int)
    (hre : getOrder s o.id = some o) :
    applyOrderFill s now a (some o)
      = { s with orders := (mapSet s.orders o.id (tradeFill o a now)) } :=
  applyOrderFill_some_eq now a hre

/-- `applyVolume` on a present order whose user loads as `usr` and whose
`usr.id` re-reads to `usr'`. -/
theorem applyVolume_some_eq {s : Store} {o : Order} {usr usr' : User}
    (now : Nat) (tv : Int)
    (hu : getUser s o.userId = some usr)
    (hre : getUser s usr.id = some usr') :
    applyVolume s now tv (some o) =
      { s with users := (mapSet s.users usr.id
          { usr' with totalTradingVolume := usr.totalTradingVolume + tv
                      updatedAt := now }) } := by
  rw [applyVolume_some, hu]
  show (updateUser s now usr.id
      { totalTradingVolume := some (usr.totalTradingVolume + tv) }).2 = _
  rw [updateUser_some now _ hre]
  rfl

/-- `applyVolume` when the re-read returns the same record. -/
theorem applyVolume_fresh {s : Store} {o : Order} {usr : User}
    (now : Nat) (tv : Int)
    (hu : getUser s o.userId = some usr)
    (hre : getUser s usr.id = some usr) :
    applyVolume s now tv (some o)
      = { s with users := (mapSet s.users usr.id (volAdd usr tv now)) } :=
  applyVolume_some_eq now tv hu hre

/-- Reading back the filled order after `applyOrderFill`. -/
theorem applyOrderFill_get_self {s : Store} {o o' : Order} (now : Nat) (a : Int)
    (hre : getOrder s o.id = some o') :
    getOrder (applyOrderFill s now a (some o)) o.id
      = some { o' with filled := o.filled + a
                       status := if o.filled + a ≥ o.amount then "Filled" else "Partial"
                       updatedAt := now } := by
  rw [applyOrderFill_some_eq now a hre]
  exact mapGet_mapSet_self s.orders o.id _

/-- Other keys are untouched by `applyOrderFill`. -/
theorem applyOrderFill_get_ne {s : Store} {o o' : Order} (now : Nat) (a : Int)
    (hre : getOrder s o.id = some o') {k : Nat} (hk : k ≠ o.id) :
    getOrder (applyOrderFill s now a (some o)) k = getOrder s k := by
  rw [applyOrderFill_some_eq now a hre]
  exact mapGet_mapSet_ne s.orders _ hk

/-- `applyOrderFill` never touches the users. -/
theorem applyOrderFill_getUser (s : Store) (now : Nat) (a : Int)
    (ob : Option Order) (k : Nat) :
    getUser (applyOrderFill s now a ob) k = getUser s k := by
  unfold getUser
  rw [applyOrderFill_users]

/-- `applyVolume` never touches the orders. -/
theorem applyVolume_getOrder (s : Store) (now : Nat) (tv : Int)
    (ob : Option Order) (k : Nat) :
    getOrder (applyVolume s now tv ob) k = getOrder s k := by
  unfold getOrder
  rw [applyVolume_orders]

/-- Reading back the credited user after `applyVolume`. -/
theorem applyVolume_get_user_self {s : Store} {o : Order} {usr usr' : User}
    (now : Nat) (tv : Int) (hu : getUser s o.userId = some usr)
    (hre : getUser s usr.id = some usr') :
    getUser (applyVolume s now tv (some o)) usr.id
      = some { usr' with totalTradingVolume := usr.totalTradingVolume + tv
                         updatedAt := now } := by
  rw [applyVolume_some_eq now tv hu hre]
  exact mapGet_mapSet_self s.users usr.id _

/-- Other user keys are untouched by `applyVolume`. -/
theorem applyVolume_get_user_ne {s : Store} {o : Order} {usr usr' : User}
    (now : Nat) (tv : Int) (hu : getUser s o.userId = some usr)
    (hre : getUser s usr.id = some usr') {k : Nat} (hk : k ≠ usr.id) :
    getUser (applyVolume s now tv (some o)) k = getUser s k := by
  rw [applyVolume_some_eq now tv hu hre]
  exact mapGet_mapSet_ne s.users _ hk

/-- The store after `createTrade` stores the trade record, written with the
two stale order reads explicit. -/
theorem createTrade_snd (s : Store) (now : Nat) (tr : InsertTrade) :
    (createTrade s now tr).2 =
      applyVolume (applyVolume (applyOrderFill (applyOrderFill
          { s with trades := (mapSet s.trades s.tradeCurrentId (createTrade s now tr).1),
                   tradeCurrentId := s.tradeCurrentId + 1 }
          now tr.amount (getOrder s tr.buyOrderId))
        now tr.amount (getOrder s tr.sellOrderId))
        now tr.totalValue (getOrder s tr.buyOrderId))
        now tr.totalValue (getOrder s tr.sellOrderId) := rfl

/-- The trade record returned by `createTrade`. -/
theorem createTrade_fst (s : Store) (now : Nat) (tr : InsertTrade) :
    (createTrade s now tr).1 =
      { id := s.tradeCurrentId, buyOrderId := tr.buyOrderId,
        sellOrderId := tr.sellOrderId, tradingPairId := tr.tradingPairId,
        price := tr.price, amount := tr.amount, totalValue := tr.totalValue,
        fee := tr.fee, timestamp := now } := rfl

/-- `createTrade` stores the new trade under the old counter and bumps the
counter; it never touches the rewards events, the user counter or the
rewards-event counter. -/
theorem createTrade_frame (s : Store) (now : Nat) (tr : InsertTrade) :
    ((createTrade s now tr).2).trades
        = mapSet s.trades s.tradeCurrentId (createTrade s now tr).1 ∧
    ((createTrade s now tr).2).tradeCurrentId = s.tradeCurrentId + 1 ∧
    ((createTrade s now tr).2).rewardsEvents = s.rewardsEvents ∧
    ((createTrade s now tr).2).rewardsEventCurrentId = s.rewardsEventCurrentId ∧
    ((createTrade s now tr).2).userCurrentId = s.userCurrentId := by
  unfold createTrade
  dsimp only
  refine ⟨?_, ?_, ?_, ?_, ?_⟩ <;> simp

/-- The rewards-event record returned by `createRewardsEvent`. -/
theorem createRewardsEvent_fst (s : Store) (now : Nat) (e : InsertRewardsEvent) :
    (createRewardsEvent s now e).1 =
      { id := s.rewardsEventCurrentId, userId := e.userId,
        eventType := e.eventType, points := e.points,
        description := e.description, createdAt := now,
        additionalData := e.additionalData } := rfl

/-- `createRewardsEvent` stores the new event under the old counter and bumps
the counter; it touches no other map and no other counter. -/
theorem createRewardsEvent_frame (s : Store) (now : Nat) (e : InsertRewardsEvent) :
    ((createRewardsEvent s now e).2).rewardsEvents
        = mapSet s.rewardsEvents s.rewardsEventCurrentId (createRewardsEvent s now e).1 ∧
    ((createRewardsEvent s now e).2).rewardsEventCurrentId = s.rewardsEventCurrentId + 1 ∧
    ((createRewardsEvent s now e).2).userCurrentId = s.userCurrentId ∧
    ((createRewardsEvent s now e).2).orders = s.orders ∧
    ((createRewardsEvent s now e).2).trades = s.trades ∧
    ((createRewardsEvent s now e).2).tradeCurrentId = s.tradeCurrentId := by
  unfold createRewardsEvent
  dsimp only
  repeat' split
  all_goals refine ⟨?_, ?_, ?_, ?_, ?_, ?_⟩ <;> simp

/-! ## Claim theorems -/
/-- **C6.**  For every id absent from an entity map, the corresponding update
operation (`updateUser`, `updateOrder`, `updateTradingPair`,
`updateNewsArticle`) returns an empty result without raising and leaves the
entire store unchanged; for every present id, it returns the stored record
merged with the given partial fields (with `updatedAt` restamped on the two
entities that carry it) and stores that merged record. -/
theorem update_absent_nop_present_merges (s : Store) (now id : Nat)
    (d1 : UserPatch) (d2 : OrderPatch) (d3 : TradingPairPatch)
    (d4 : NewsArticlePatch) :
    (getUser s id = none → updateUser s now id d1 = (none, s)) ∧
    (∀ u, getUser s id = some u →
      updateUser s now id d1 =
        (some { applyUserPatch u d1 with updatedAt := now },
         { s with users := (mapSet s.users id
            { applyUserPatch u d1 with updatedAt := now }) })) ∧
    (getOrder s id = none → updateOrder s now id d2 = (none, s)) ∧
    (∀ o, getOrder s id = some o →
      updateOrder s now id d2 =
        (some { applyOrderPatch o d2 with updatedAt := now },
         { s with orders := (mapSet s.orders id
            { applyOrderPatch o d2 with updatedAt := now }) })) ∧
    (getTradingPair s id = none → updateTradingPair s id d3 = (none, s)) ∧
    (∀ p, getTradingPair s id = some p →
      updateTradingPair s id d3 =
        (some (applyTradingPairPatch p d3),
         { s with tradingPairs := (mapSet s.tradingPairs id
            (applyTradingPairPatch p d3)) })) ∧
    (getNewsArticle s id = none → updateNewsArticle s id d4 = (none, s)) ∧
    (∀ a, getNewsArticle s id = some a →
      updateNewsArticle s id d4 =
        (some (applyNewsArticlePatch a d4),
         { s with newsArticles := (mapSet s.newsArticles id
            (applyNewsArticlePatch a d4)) })) := by
  refine ⟨?_, ?_, ?_, ?_, ?_, ?_, ?_, ?_⟩
  · intro h; exact updateUser_none now d1 h
  · intro u h; exact updateUser_some now d1 h
  · intro h; exact updateOrder_none now d2 h
  · intro o h; exact updateOrder_some now d2 h
  · intro h; exact updateTradingPair_none d3 h
  · intro p h; exact updateTradingPair_some d3 h
  · intro h; exact updateNewsArticle_none d4 h
  · intro a h; exact updateNewsArticle_some d4 h

/-- Witness for C6 at a concrete store: id 1 is a present user (the update
merges and stores) and an absent order (the update is a no-op returning
`none`). -/
theorem update_absent_nop_present_merges_witness :
    updateUser c6Store 5 1 {} =
      (some { applyUserPatch c6User {} with updatedAt := 5 },
       { c6Store with users := (mapSet c6Store.users 1
          { applyUserPatch c6User {} with updatedAt := 5 }) }) ∧
    updateOrder c6Store 5 1 {} = (none, c6Store) :=
  ⟨(update_absent_nop_present_merges c6Store 5 1 {} {} {} {}).2.1 c6User rfl,
   (update_absent_nop_present_merges c6Store 5 1 {} {} {} {}).2.2.1 rfl⟩

/-- **C7.**  For every insert record `x` and every entity type, `create(x)`
returns the record `x` extended with the newly assigned id — the entity's
current counter value, which then increments — and the entity's timestamps
and defaulted fields, and a `get` of the returned id yields exactly that
stored record. -/
theorem create_then_get_roundtrip (s : Store) (now : Nat)
    (iu : InsertUser) (itp : InsertTradingPair) (io : InsertOrder)
    (it : InsertTrade) (ie : InsertRewardsEvent) (irt : InsertRewardsTier)
    (ia : InsertNewsArticle) (isub : InsertSubscriber) :
    ((createUser s now iu).1 =
        { id := s.userCurrentId, username := iu.username, email := iu.email,
          password := iu.password, fullName := iu.fullName,
          walletAddress := iu.walletAddress, createdAt := now, updatedAt := now,
          twoFactorEnabled := false, isVerified := false,
          totalTradingVolume := 0, rewardsPoints := 0,
          referralCode := some ((iu.username.take 5).toUpper
            ++ toString s.userCurrentId) } ∧
      ((createUser s now iu).2).userCurrentId = s.userCurrentId + 1 ∧
      getUser (createUser s now iu).2 (createUser s now iu).1.id
        = some (createUser s now iu).1) ∧
    ((createTradingPair s itp).1 =
        { id := s.tradingPairCurrentId, baseAsset := itp.baseAsset,
          quoteAsset := itp.quoteAsset, pairSymbol := itp.pairSymbol,
          minTradeAmount := itp.minTradeAmount,
          maxTradeAmount := itp.maxTradeAmount, tradingFee := itp.tradingFee,
          isActive := itp.isActive } ∧
      ((createTradingPair s itp).2).tradingPairCurrentId
        = s.tradingPairCurrentId + 1 ∧
      getTradingPair (createTradingPair s itp).2 (createTradingPair s itp).1.id
        = some (createTradingPair s itp).1) ∧
    ((createOrder s now io).1 =
        { id := s.orderCurrentId, userId := io.userId,
          tradingPairId := io.tradingPairId, type := io.type, side := io.side,
          price := io.price, amount := io.amount, filled := 0,
          status := if io.type == "Market" then "Filled" else "Open",
          createdAt := now, updatedAt := now } ∧
      ((createOrder s now io).2).orderCurrentId = s.orderCurrentId + 1 ∧
      getOrder (createOrder s now io).2 (createOrder s now io).1.id
        = some (createOrder s now io).1) ∧
    ((createTrade s now it).1 =
        { id := s.tradeCurrentId, buyOrderId := it.buyOrderId,
          sellOrderId := it.sellOrderId, tradingPairId := it.tradingPairId,
          price := it.price, amount := it.amount, totalValue := it.totalValue,
          fee := it.fee, timestamp := now } ∧
      ((createTrade s now it).2).tradeCurrentId = s.tradeCurrentId + 1 ∧
      getTrade (createTrade s now it).2 (createTrade s now it).1.id
        = some (createTrade s now it).1) ∧
    ((createRewardsEvent s now ie).1 =
        { id := s.rewardsEventCurrentId, userId := ie.userId,
          eventType := ie.eventType, points := ie.points,
          description := ie.description, createdAt := now,
          additionalData := ie.additionalData } ∧
      ((createRewardsEvent s now ie).2).rewardsEventCurrentId
        = s.rewardsEventCurrentId + 1 ∧
      getRewardsEvent (createRewardsEvent s now ie).2
          (createRewardsEvent s now ie).1.id
        = some (createRewardsEvent s now ie).1) ∧
    ((createRewardsTier s irt).1 =
        { id := s.rewardsTierCurrentId, name := irt.name,
          pointsRequired := irt.pointsRequired,
          tradingFeeDiscount := irt.tradingFeeDiscount,
          additionalBenefits := irt.additionalBenefits, icon := irt.icon } ∧
      ((createRewardsTier s irt).2).rewardsTierCurrentId
        = s.rewardsTierCurrentId + 1 ∧
      mapGet ((createRewardsTier s irt).2).rewardsTiers (createRewardsTier s irt).1.id
        = some (createRewardsTier s irt).1) ∧
    ((createNewsArticle s ia).1 =
        { id := s.newsArticleCurrentId, title := ia.title,
          content := ia.content, summary := ia.summary, author := ia.author,
          publishDate := ia.publishDate, isPublished := ia.isPublished,
          imageUrl := ia.imageUrl, tags := ia.tags } ∧
      ((createNewsArticle s ia).2).newsArticleCurrentId
        = s.newsArticleCurrentId + 1 ∧
      getNewsArticle (createNewsArticle s ia).2 (createNewsArticle s ia).1.id
        = some (createNewsArticle s ia).1) ∧
    ((createSubscriber s now isub).1 =
        { id := s.subscriberCurrentId, email := isub.email,
          subscribedAt := now, isActive := true } ∧
      ((createSubscriber s now isub).2).subscriberCurrentId
        = s.subscriberCurrentId + 1 ∧
      mapGet ((createSubscriber s now isub).2).subscribers
          (createSubscriber s now isub).1.id
        = some (createSubscriber s now isub).1) := by
  refine ⟨⟨rfl, rfl, ?_⟩, ⟨rfl, rfl, ?_⟩, ⟨rfl, rfl, ?_⟩, ⟨rfl, ?_, ?_⟩,
          ⟨rfl, ?_, ?_⟩, ⟨rfl, rfl, ?_⟩, ⟨rfl, rfl, ?_⟩, ⟨rfl, rfl, ?_⟩⟩
  · exact mapGet_mapSet_self s.users s.userCurrentId _
  · exact mapGet_mapSet_self s.tradingPairs s.tradingPairCurrentId _
  · exact mapGet_mapSet_self s.orders s.orderCurrentId _
  · exact (createTrade_frame s now it).2.1
  · show mapGet ((createTrade s now it).2).trades (createTrade s now it).1.id
        = some (createTrade s now it).1
    rw [(createTrade_frame s now it).1]
    exact mapGet_mapSet_self s.trades s.tradeCurrentId _
  · exact (createRewardsEvent_frame s now ie).2.1
  · show mapGet ((createRewardsEvent s now ie).2).rewardsEvents
          (createRewardsEvent s now ie).1.id
        = some (createRewardsEvent s now ie).1
    rw [(createRewardsEvent_frame s now ie).1]
    exact mapGet_mapSet_self s.rewardsEvents s.rewardsEventCurrentId _
  · exact mapGet_mapSet_self s.rewardsTiers s.rewardsTierCurrentId _
  · exact mapGet_mapSet_self s.newsArticles s.newsArticleCurrentId _
  · exact mapGet_mapSet_self s.subscribers s.subscriberCurrentId _

/-- **C10.**  `verifyUser(tk)` returns the updated user — `isVerified` set,
`verificationToken` cleared, `updatedAt` restamped — and stores it, if and
only if some user's stored `verificationToken` equals `tk`; when no user
matches it returns `none` and leaves the store (hence every user record)
unchanged. -/
theorem verifyUser_spec (s : Store) (now : Nat) (tok : String) :
    ((verifyUser s now tok).1.isSome ↔
      ∃ u ∈ mapValues s.users, u.verificationToken = some tok) ∧
    ((verifyUser s now tok).1 = none → (verifyUser s now tok).2 = s) ∧
    (∀ u, (mapValues s.users).find? (fun v => v.verificationToken == some tok)
        = some u →
      (verifyUser s now tok).1
          = some { u with isVerified := true, verificationToken := none,
                          updatedAt := now } ∧
      getUser (verifyUser s now tok).2 u.id
          = some { u with isVerified := true, verificationToken := none,
                          updatedAt := now } ∧
      (verifyUser s now tok).2
          = { s with users := (mapSet s.users u.id
              { u with isVerified := true, verificationToken := none,
                       updatedAt := now }) }) := by
  refine ⟨?_, ?_, ?_⟩
  · constructor
    · intro h
      cases hfind : (mapValues s.users).find?
          (fun v => v.verificationToken == some tok) with
      | none => rw [verifyUser_none now hfind] at h; simp at h
      | some u =>
        refine ⟨u, List.mem_of_find?_eq_some hfind, ?_⟩
        simpa using List.find?_some hfind
    · rintro ⟨u, hu, htok⟩
      cases hfind : (mapValues s.users).find?
          (fun v => v.verificationToken == some tok) with
      | none =>
        have := List.find?_eq_none.1 hfind u hu
        simp [htok] at this
      | some u' => rw [verifyUser_some now hfind]; simp
  · intro h
    cases hfind : (mapValues s.users).find?
        (fun v => v.verificationToken == some tok) with
    | none => rw [verifyUser_none now hfind]
    | some u => rw [verifyUser_some now hfind] at h; simp at h
  · intro u hfind
    rw [verifyUser_some now hfind]
    exact ⟨rfl, mapGet_mapSet_self s.users u.id _, rfl⟩

/-- Witness for C10: verifying with the stored token returns and stores the
verified user. -/
theorem verifyUser_spec_witness :
    (verifyUser c10Store 7 "VT").1
        = some { c10User with isVerified := true, verificationToken := none,
                              updatedAt := 7 } ∧
    getUser (verifyUser c10Store 7 "VT").2 1
        = some { c10User with isVerified := true, verificationToken := none,
                              updatedAt := 7 } :=
  ⟨((verifyUser_spec c10Store 7 "VT").2.2 c10User rfl).1,
   ((verifyUser_spec c10Store 7 "VT").2.2 c10User rfl).2.1⟩

/-- `resetTokenLive` unfolded into its claim-level reading. -/
theorem resetTokenLive_iff (u : User) (tok : String) (now : Nat) :
    resetTokenLive u tok now = true ↔
      u.resetPasswordToken = some tok ∧
        ∃ e, u.resetPasswordExpires = some e ∧ now < e := by
  unfold resetTokenLive
  cases hexp : u.resetPasswordExpires with
  | none => simp
  | some e => simp [Bool.and_eq_true]

/-- **C5.**  `resetPassword(tk, p)` returns `true` iff some user's stored
`resetPasswordToken` equals `tk` with an unexpired `resetPasswordExpires`;
on success the (first) matching user gets password `p` and cleared
token/expiry; on failure the store is unchanged; and — provided the users
map is well-formed and at most one user carries token `tk` — a second call
with the same token is a `false` no-op. -/
theorem resetPassword_spec (s : Store) (now : Nat) (tok pw : String) :
    ((resetPassword s now tok pw).1 = true ↔
      ∃ u ∈ mapValues s.users, u.resetPasswordToken = some tok ∧
        ∃ e, u.resetPasswordExpires = some e ∧ now < e) ∧
    ((resetPassword s now tok pw).1 = false → (resetPassword s now tok pw).2 = s) ∧
    (∀ u, (mapValues s.users).find? (fun v => resetTokenLive v tok now) = some u →
      (resetPassword s now tok pw).1 = true ∧
      getUser (resetPassword s now tok pw).2 u.id
        = some { u with password := pw, resetPasswordToken := none,
                        resetPasswordExpires := none, updatedAt := now }) ∧
    (WFmap User.id s.users →
     (∀ v ∈ mapValues s.users, ∀ w ∈ mapValues s.users,
        v.resetPasswordToken = some tok → w.resetPasswordToken = some tok → v = w) →
     (resetPassword s now tok pw).1 = true →
     ∀ now2 pw2, resetPassword (resetPassword s now tok pw).2 now2 tok pw2
        = (false, (resetPassword s now tok pw).2)) := by
  refine ⟨?_, ?_, ?_, ?_⟩
  · constructor
    · intro h
      cases hfind : (mapValues s.users).find? (fun v => resetTokenLive v tok now) with
      | none => rw [resetPassword_none now hfind] at h; simp at h
      | some u =>
        have hlive0 := List.find?_some hfind
        have hlive : resetTokenLive u tok now = true := hlive0
        exact ⟨u, List.mem_of_find?_eq_some hfind,
          (resetTokenLive_iff u tok now).1 hlive⟩
    · rintro ⟨u, hu, htok⟩
      cases hfind : (mapValues s.users).find? (fun v => resetTokenLive v tok now) with
      | none =>
        have := List.find?_eq_none.1 hfind u hu
        exact absurd ((resetTokenLive_iff u tok now).2 htok) this
      | some u' => rw [resetPassword_some now hfind]
  · intro h
    cases hfind : (mapValues s.users).find? (fun v => resetTokenLive v tok now) with
    | none => rw [resetPassword_none now hfind]
    | some u => rw [resetPassword_some now hfind] at h; simp at h
  · intro u hfind
    rw [resetPassword_some now hfind]
    exact ⟨rfl, mapGet_mapSet_self s.users u.id _⟩
  · intro hwf huniq htrue now2 pw2
    cases hfind : (mapValues s.users).find? (fun v => resetTokenLive v tok now) with
    | none => rw [resetPassword_none now hfind] at htrue; simp at htrue
    | some u =>
      rw [resetPassword_some now hfind]
      have hu_mem : u ∈ mapValues s.users := List.mem_of_find?_eq_some hfind
      have hu_live0 := List.find?_some hfind
      have hu_live : resetTokenLive u tok now = true := hu_live0
      have hu_tok : u.resetPasswordToken = some tok :=
        ((resetTokenLive_iff u tok now).1 hu_live).1
      have hnone : (mapValues (mapSet s.users u.id
          ({ u with password := pw, resetPasswordToken := none,
                    resetPasswordExpires := none, updatedAt := now }))).find?
            (fun v => resetTokenLive v tok now2) = none := by
        apply find?_values_mapSet_eq_none
        · unfold resetTokenLive; simp
        · intro p hp hlive
          have hp_tok : p.2.resetPasswordToken = some tok :=
            ((resetTokenLive_iff p.2 tok now2).1 hlive).1
          have hp_mem : p.2 ∈ mapValues s.users := List.mem_map.2 ⟨p, hp, rfl⟩
          have : p.2 = u := huniq p.2 hp_mem u hu_mem hp_tok hu_tok
          rw [← hwf.2 p hp, this]
      exact resetPassword_none now2 hnone

/-- Witness for C5: at instant 1 the token is live, so the reset succeeds;
repeating it with the same token is a `false` no-op. -/
theorem resetPassword_spec_witness :
    (resetPassword c5Store 1 "T" "new").1 = true ∧
    resetPassword (resetPassword c5Store 1 "T" "new").2 2 "T" "x"
      = (false, (resetPassword c5Store 1 "T" "new").2) :=
  ⟨((resetPassword_spec c5Store 1 "T" "new").2.2.1 c5User rfl).1,
   (resetPassword_spec c5Store 1 "T" "new").2.2.2 (by decide) (by decide)
     ((resetPassword_spec c5Store 1 "T" "new").2.2.1 c5User rfl).1 2 "x"⟩

/-- An entry whose key differs from the written one was already in the map. -/
theorem mem_mapSet_ne_key {α : Type} {m : List (Nat × α)} {k : Nat} {v : α}
    {p : Nat × α} (hp : p ∈ mapSet m k v) (hne : p.1 ≠ k) : p ∈ m := by
  unfold mapSet at hp
  by_cases hhas : mapHas m k
  · rw [if_pos hhas] at hp
    obtain ⟨q, hq, hqp⟩ := List.mem_map.1 hp
    by_cases hqk : q.1 = k
    · rw [← hqp] at hne; simp [hqk] at hne
    · rwa [← hqp, if_neg (by simpa using hqk)]
  · rw [if_neg hhas] at hp
    rcases List.mem_append.1 hp with hp | hp
    · exact hp
    · simp at hp; rw [hp] at hne; simp at hne

/-- When no stored user carries the token, `resetPassword` is a `false`
no-op. -/
theorem resetPassword_no_token {s : Store} {now : Nat} {tok pw : String}
    (h : ∀ u ∈ mapValues s.users, u.resetPasswordToken ≠ some tok) :
    resetPassword s now tok pw = (false, s) := by
  apply resetPassword_none
  apply List.find?_eq_none.2
  intro u hu
  unfold resetTokenLive
  simp [h u hu]

/-- **C8.**  For every email with a stored subscriber record, `unsubscribe`
returns `true` and stores the record with `isActive := false` (also when it
was already inactive); afterwards `getSubscriberByEmail` still returns that
(now inactive) record while `getAllSubscribers` omits it; consequently the
`POST /api/subscribe` duplicate check rejects re-subscribing that email. -/
theorem unsubscribe_spec (s : Store) (email : String)
    (hwf : WFmap Subscriber.id s.subscribers) :
    ∀ r, getSubscriberByEmail s email = some r →
      (unsubscribe s email).1 = true ∧
      getSubscriberByEmail (unsubscribe s email).2 email
        = some { r with isActive := false } ∧
      mapGet ((unsubscribe s email).2).subscribers r.id
        = some { r with isActive := false } ∧
      (∀ v ∈ getAllSubscribers (unsubscribe s email).2, v.id ≠ r.id) ∧
      subscribeRejectsDuplicate (unsubscribe s email).2 email = true := by
  intro r hfind
  rw [unsubscribe_some hfind]
  have hrmail0 := List.find?_some hfind
  have hrmail : (r.email == email) = true := hrmail0
  have hbyEmail : getSubscriberByEmail
      { s with subscribers := (mapSet s.subscribers r.id { r with isActive := false }) }
      email = some { r with isActive := false } := by
    unfold getSubscriberByEmail at hfind ⊢
    exact find?_values_mapSet_found _ hwf hfind hrmail
  refine ⟨rfl, hbyEmail, mapGet_mapSet_self s.subscribers r.id _, ?_, ?_⟩
  · intro v hv
    unfold getAllSubscribers at hv
    have hv_mem : v ∈ mapValues (mapSet s.subscribers r.id { r with isActive := false }) :=
      List.mem_of_mem_filter hv
    have hv_act : v.isActive = true := by
      have := List.of_mem_filter hv
      simpa using this
    rcases mem_values_mapSet hv_mem with hvr | ⟨p, hp, hpk, hpv⟩
    · rw [hvr] at hv_act; simp at hv_act
    · intro hid
      exact hpk (by rw [← hwf.2 p hp, hpv, hid])
  · unfold subscribeRejectsDuplicate
    rw [hbyEmail]
    rfl

/-- Witness for C8 at a concrete store. -/
theorem unsubscribe_spec_witness :
    (unsubscribe c8Store "bob@x.com").1 = true ∧
    getSubscriberByEmail (unsubscribe c8Store "bob@x.com").2 "bob@x.com"
      = some { c8Sub with isActive := false } ∧
    subscribeRejectsDuplicate (unsubscribe c8Store "bob@x.com").2 "bob@x.com" = true :=
  ⟨(unsubscribe_spec c8Store "bob@x.com" (by decide) c8Sub rfl).1,
   (unsubscribe_spec c8Store "bob@x.com" (by decide) c8Sub rfl).2.1,
   (unsubscribe_spec c8Store "bob@x.com" (by decide) c8Sub rfl).2.2.2.2⟩

/-- **C9.**  Generating a second reset token for the same email overwrites
the stored token/expiry pair, so — as long as the freshly generated tokens
are distinct and the first token is fresh (no stored user already carries
it) — the earlier token matches no user afterwards and `resetPassword` with
it is a `false` no-op. -/
theorem generateResetToken_invalidates_previous (s : Store) (now1 now2 : Nat)
    (email tok1 tok2 : String)
    (hwf : WFmap User.id s.users)
    (hne : tok1 ≠ tok2)
    (hfresh : ∀ u ∈ mapValues s.users, u.resetPasswordToken ≠ some tok1) :
    (∀ u0, getUserByEmail s email = some u0 →
      (getUser (generateResetToken (generateResetToken s now1 email tok1).2
          now2 email tok2).2 u0.id).map User.resetPasswordToken
        = some (some tok2)) ∧
    (∀ u ∈ mapValues ((generateResetToken (generateResetToken s now1 email tok1).2
        now2 email tok2).2).users, u.resetPasswordToken ≠ some tok1) ∧
    (∀ now3 pw, resetPassword (generateResetToken (generateResetToken s now1
        email tok1).2 now2 email tok2).2 now3 tok1 pw
      = (false, (generateResetToken (generateResetToken s now1 email tok1).2
          now2 email tok2).2)) := by
  cases hget : getUserByEmail s email with
  | none =>
    rw [generateResetToken_none now1 hget, generateResetToken_none now2 hget]
    refine ⟨?_, hfresh, ?_⟩
    · intro u0 h; cases h
    · intro now3 pw; exact resetPassword_no_token hfresh
  | some u0 =>
    have hmail0 := List.find?_some hget
    have hmail : (u0.email == email) = true := hmail0
    rw [generateResetToken_some now1 hget]
    have hget1 : getUserByEmail
        { s with users := (mapSet s.users u0.id
          { u0 with resetPasswordToken := some tok1,
                    resetPasswordExpires := some (now1 + oneHourMs),
                    updatedAt := now1 }) } email
        = some { u0 with resetPasswordToken := some tok1,
                         resetPasswordExpires := some (now1 + oneHourMs),
                         updatedAt := now1 } := by
      unfold getUserByEmail at hget ⊢
      exact find?_values_mapSet_found _ hwf hget hmail
    rw [generateResetToken_some now2 hget1]
    have hnotok1 : ∀ u ∈ mapValues (mapSet (mapSet s.users u0.id
        { u0 with resetPasswordToken := some tok1,
                  resetPasswordExpires := some (now1 + oneHourMs),
                  updatedAt := now1 }) u0.id
        ({ { u0 with resetPasswordToken := some tok1,
                     resetPasswordExpires := some (now1 + oneHourMs),
                     updatedAt := now1 } with
            resetPasswordToken := some tok2,
            resetPasswordExpires := some (now2 + oneHourMs),
            updatedAt := now2 })),
        u.resetPasswordToken ≠ some tok1 := by
      intro u hu
      rcases mem_values_mapSet hu with hu2 | ⟨p, hp, hpk, hpu⟩
      · rw [hu2]
        simp only []
        intro hctr
        exact hne (by simpa using hctr.symm)
      · have hp0 : p ∈ s.users := mem_mapSet_ne_key hp hpk
        rw [← hpu]
        exact hfresh p.2 (List.mem_map.2 ⟨p, hp0, rfl⟩)
    refine ⟨?_, hnotok1, ?_⟩
    · intro u1 h1
      cases h1
      unfold getUser
      dsimp only
      rw [mapGet_mapSet_self]
      rfl
    · intro now3 pw
      exact resetPassword_no_token hnotok1

/-- Witness for C9: after generating token `"A"` then `"B"` for the same
email, the stored token is `"B"` and resetting with `"A"` fails. -/
theorem generateResetToken_invalidates_previous_witness :
    (getUser c9S2 1).map User.resetPasswordToken = some (some "B") ∧
    resetPassword c9S2 3 "A" "p" = (false, c9S2) :=
  ⟨(generateResetToken_invalidates_previous c9Store 1 2 "dave@x.com" "A" "B"
      (by decide) (by decide) (by decide)).1 c9User rfl,
   (generateResetToken_invalidates_previous c9Store 1 2 "dave@x.com" "A" "B"
      (by decide) (by decide) (by decide)).2.2 3 "p"⟩

/-- `getUserRewardsTier` for a present user, written over the sorted tier
list. -/
theorem getUserRewardsTier_eq_of_user {s : Store} {userId : Nat} {u : User}
    (hu : getUser s userId = some u) :
    getUserRewardsTier s userId =
      match (sortTiersDesc (getAllRewardsTiers s)).find?
          (fun t => t.pointsRequired ≤ u.rewardsPoints) with
      | some tier => some tier
      | none => (sortTiersDesc (getAllRewardsTiers s)).head? := by
  unfold getUserRewardsTier
  rw [hu]

/-- **C4 (amended).**  For an absent user id `getUserRewardsTier` returns
nothing.  For a present user, when some tier's threshold is met it returns a
qualifying tier of maximal `pointsRequired`; when no tier qualifies and the
tier list is nonempty it returns a tier of maximal `pointsRequired` overall —
the head of the *descending*-sorted array (the in-place `sort` aliases
`tiers`, so the `tiers[0]` fallback reads the sorted array), **not** the
lowest tier. -/
theorem getUserRewardsTier_spec (s : Store) (userId : Nat) :
    (getUser s userId = none → getUserRewardsTier s userId = none) ∧
    (∀ u, getUser s userId = some u →
      ((∃ t ∈ getAllRewardsTiers s, t.pointsRequired ≤ u.rewardsPoints) →
        ∃ r, getUserRewardsTier s userId = some r ∧
          r ∈ getAllRewardsTiers s ∧
          r.pointsRequired ≤ u.rewardsPoints ∧
          ∀ t ∈ getAllRewardsTiers s, t.pointsRequired ≤ u.rewardsPoints →
            t.pointsRequired ≤ r.pointsRequired) ∧
      ((∀ t ∈ getAllRewardsTiers s, ¬ t.pointsRequired ≤ u.rewardsPoints) →
        getAllRewardsTiers s ≠ [] →
        ∃ r, getUserRewardsTier s userId = some r ∧
          r ∈ getAllRewardsTiers s ∧
          ∀ t ∈ getAllRewardsTiers s, t.pointsRequired ≤ r.pointsRequired)) := by
  refine ⟨?_, ?_⟩
  · intro h; unfold getUserRewardsTier; rw [h]
  · intro u hu
    constructor
    · rintro ⟨t0, ht0, hq0⟩
      cases hfind : (sortTiersDesc (getAllRewardsTiers s)).find?
          (fun t => t.pointsRequired ≤ u.rewardsPoints) with
      | none =>
        exact absurd (by simpa using hq0)
          (List.find?_eq_none.1 hfind t0 (mem_sortTiersDesc.2 ht0))
      | some r =>
        have hmax := find?_sortedDesc_max (sortedDesc_sortTiersDesc _) hfind
        refine ⟨r, ?_, mem_sortTiersDesc.1 (List.mem_of_find?_eq_some hfind),
          hmax.1, fun t ht hq => hmax.2 t (mem_sortTiersDesc.2 ht) hq⟩
        rw [getUserRewardsTier_eq_of_user hu, hfind]
    · intro hnone hne
      have hfind : (sortTiersDesc (getAllRewardsTiers s)).find?
          (fun t => t.pointsRequired ≤ u.rewardsPoints) = none :=
        List.find?_eq_none.2
          (fun t ht => by simpa using hnone t (mem_sortTiersDesc.1 ht))
      cases hsl : sortTiersDesc (getAllRewardsTiers s) with
      | nil =>
        exfalso
        cases hl : getAllRewardsTiers s with
        | nil => exact hne hl
        | cons t ts =>
          have : t ∈ sortTiersDesc (getAllRewardsTiers s) :=
            mem_sortTiersDesc.2 (by rw [hl]; exact List.mem_cons_self t ts)
          rw [hsl] at this
          cases this
      | cons r rest =>
        have hhead : (sortTiersDesc (getAllRewardsTiers s)).head? = some r := by
          rw [hsl]; rfl
        have hmax := head_sortedDesc_max (sortedDesc_sortTiersDesc
          (getAllRewardsTiers s)) hhead
        refine ⟨r, ?_, mem_sortTiersDesc.1 hmax.1,
          fun t ht => hmax.2 t (mem_sortTiersDesc.2 ht)⟩
        rw [getUserRewardsTier_eq_of_user hu, hfind, hhead]

/-- Counterexample to C4 as stated: with the seeded tiers and a user at −1
points no threshold is met, a zero-threshold (lowest) tier exists, yet
`getUserRewardsTier` returns the 10000-point (highest) tier — because the
fallback `tiers[0]` reads the array already sorted descending in place. -/
theorem getUserRewardsTier_fallback_not_lowest :
    (getUser c4Store 1).map User.rewardsPoints = some (-1) ∧
    (∀ t ∈ getAllRewardsTiers c4Store, ¬ t.pointsRequired ≤ (-1 : Int)) ∧
    (∃ t ∈ getAllRewardsTiers c4Store, t.pointsRequired = 0) ∧
    (getUserRewardsTier c4Store 1).map RewardsTier.pointsRequired = some 10000 := by
  refine ⟨by decide, by decide, by decide, by decide⟩

/-- Witness for C4 (amended) at concrete inputs: an absent user id yields
no tier (by the theorem), and a user at 150 points with the seeded tiers
gets the 0-point tier — the qualifying tier of maximal threshold. -/
theorem getUserRewardsTier_spec_witness :
    getUserRewardsTier { initStore with users := [(1, c4User)] } 99 = none ∧
    (getUserRewardsTier { initStore with users := [(1, c4User)] } 1).map
        RewardsTier.pointsRequired = some 0 :=
  ⟨(getUserRewardsTier_spec { initStore with users := [(1, c4User)] } 99).1
      (by decide),
   by decide⟩

/-- **C3 (amended).**  On a well-formed store where both referenced orders
and both users behind them exist, `createTrade(t)` sets each referenced
order's `filled` to its old value plus `t.amount` (also when the two order
ids coincide: the second update works from the stale pre-trade read, so the
order's fill grows by `t.amount` once, not twice), and adds `t.totalValue`
to a referenced user's `totalTradingVolume` **once per order reference**:
a user behind both orders — in particular when the ids coincide — gains
`2 · t.totalValue`, because the second user read is taken after the first
volume update. -/
theorem createTrade_updates_fills_and_volumes (s : Store) (now : Nat)
    (tr : InsertTrade)
    (hwfo : WFmap Order.id s.orders) (hwfu : WFmap User.id s.users)
    (bo so : Order) (ub us : User)
    (hbo : getOrder s tr.buyOrderId = some bo)
    (hso : getOrder s tr.sellOrderId = some so)
    (hub : getUser s bo.userId = some ub)
    (hus : getUser s so.userId = some us) :
    (getOrder (createTrade s now tr).2 tr.buyOrderId).map Order.filled
      = some (bo.filled + tr.amount) ∧
    (getOrder (createTrade s now tr).2 tr.sellOrderId).map Order.filled
      = some (so.filled + tr.amount) ∧
    (getUser (createTrade s now tr).2 bo.userId).map User.totalTradingVolume
      = some (ub.totalTradingVolume +
          (if so.userId = bo.userId then 2 * tr.totalValue else tr.totalValue)) ∧
    (getUser (createTrade s now tr).2 so.userId).map User.totalTradingVolume
      = some (us.totalTradingVolume +
          (if so.userId = bo.userId then 2 * tr.totalValue else tr.totalValue)) := by
  have hbid : bo.id = tr.buyOrderId := WFmap_gid_of_mapGet hwfo hbo
  have hsid : so.id = tr.sellOrderId := WFmap_gid_of_mapGet hwfo hso
  have hubid : ub.id = bo.userId := WFmap_gid_of_mapGet hwfu hub
  have husid : us.id = so.userId := WFmap_gid_of_mapGet hwfu hus
  rw [createTrade_snd, hbo, hso]
  by_cases hbs : tr.sellOrderId = tr.buyOrderId
  · -- the two order ids coincide
    rw [hbs] at hso
    have hsobo : so = bo := Option.some_inj.1 (hso.symm.trans hbo)
    rw [hsobo] at hus husid ⊢
    have husub : us = ub := Option.some_inj.1 (hus.symm.trans hub)
    rw [husub, hbs]
    set S1 : Store := { s with
      trades := (mapSet s.trades s.tradeCurrentId (createTrade s now tr).1),
      tradeCurrentId := s.tradeCurrentId + 1 } with hS1
    set A1 := applyOrderFill S1 now tr.amount (some bo) with hA1
    set A2 := applyOrderFill A1 now tr.amount (some bo) with hA2
    set A3 := applyVolume A2 now tr.totalValue (some bo) with hA3
    set A4 := applyVolume A3 now tr.totalValue (some bo) with hA4
    have hS1b : getOrder S1 bo.id = some bo := by rw [hbid]; exact hbo
    have hA1b : getOrder A1 bo.id = some (tradeFill bo tr.amount now) := by
      rw [hA1]; exact applyOrderFill_get_self now tr.amount hS1b
    have hA2b : getOrder A2 bo.id = some (tradeFill bo tr.amount now) := by
      rw [hA2]
      exact @applyOrderFill_get_self A1 bo (tradeFill bo tr.amount now)
        now tr.amount hA1b
    have hgu : getUser A2 bo.userId = some ub := by
      rw [hA2, hA1, applyOrderFill_getUser, applyOrderFill_getUser]
      exact hub
    have hreu : getUser A2 ub.id = some ub := by rw [hubid]; exact hgu
    have hA3u : getUser A3 ub.id = some (volAdd ub tr.totalValue now) := by
      rw [hA3]; exact applyVolume_get_user_self now tr.totalValue hgu hreu
    have hgu2 : getUser A3 bo.userId = some (volAdd ub tr.totalValue now) := by
      rw [← hubid]; exact hA3u
    have hreu2 : getUser A3 (volAdd ub tr.totalValue now).id
        = some (volAdd ub tr.totalValue now) := by
      show getUser A3 ub.id = _
      exact hA3u
    have hA4u : getUser A4 (volAdd ub tr.totalValue now).id
        = some (volAdd (volAdd ub tr.totalValue now) tr.totalValue now) := by
      rw [hA4]; exact applyVolume_get_user_self now tr.totalValue hgu2 hreu2
    have hA4u' : getUser A4 bo.userId
        = some (volAdd (volAdd ub tr.totalValue now) tr.totalValue now) := by
      rw [← show (volAdd ub tr.totalValue now).id = bo.userId from hubid]
      exact hA4u
    have hA4b : getOrder A4 bo.id = some (tradeFill bo tr.amount now) := by
      rw [hA4, applyVolume_getOrder, hA3, applyVolume_getOrder]
      exact hA2b
    refine ⟨?_, ?_, ?_, ?_⟩
    · rw [← hbid, hA4b]; rfl
    · rw [← hbid, hA4b]; rfl
    · rw [hA4u']; simp [volAdd]; omega
    · rw [hA4u']; simp [volAdd]; omega
  · -- distinct order ids
    have hbsne : tr.buyOrderId ≠ tr.sellOrderId := fun h => hbs h.symm
    set S1 : Store := { s with
      trades := (mapSet s.trades s.tradeCurrentId (createTrade s now tr).1),
      tradeCurrentId := s.tradeCurrentId + 1 } with hS1
    set A1 := applyOrderFill S1 now tr.amount (some bo) with hA1
    set A2 := applyOrderFill A1 now tr.amount (some so) with hA2
    set A3 := applyVolume A2 now tr.totalValue (some bo) with hA3
    set A4 := applyVolume A3 now tr.totalValue (some so) with hA4
    have hS1b : getOrder S1 bo.id = some bo := by rw [hbid]; exact hbo
    have hA1b : getOrder A1 bo.id = some (tradeFill bo tr.amount now) := by
      rw [hA1]; exact applyOrderFill_get_self now tr.amount hS1b
    have hA1s : getOrder A1 so.id = some so := by
      rw [hA1, applyOrderFill_get_ne now tr.amount hS1b
        (show so.id ≠ bo.id from by rw [hsid, hbid]; exact hbs)]
      rw [hsid]; exact hso
    have hA2s : getOrder A2 so.id = some (tradeFill so tr.amount now) := by
      rw [hA2]; exact applyOrderFill_get_self now tr.amount hA1s
    have hA2b : getOrder A2 bo.id = some (tradeFill bo tr.amount now) := by
      rw [hA2, applyOrderFill_get_ne now tr.amount hA1s
        (show bo.id ≠ so.id from by rw [hsid, hbid]; exact hbsne)]
      exact hA1b
    have hgub : getUser A2 bo.userId = some ub := by
      rw [hA2, hA1, applyOrderFill_getUser, applyOrderFill_getUser]
      exact hub
    have hgus : getUser A2 so.userId = some us := by
      rw [hA2, hA1, applyOrderFill_getUser, applyOrderFill_getUser]
      exact hus
    have hreub : getUser A2 ub.id = some ub := by rw [hubid]; exact hgub
    have hA3ub : getUser A3 ub.id = some (volAdd ub tr.totalValue now) := by
      rw [hA3]; exact applyVolume_get_user_self now tr.totalValue hgub hreub
    have hA3ub' : getUser A3 bo.userId = some (volAdd ub tr.totalValue now) := by
      rw [← hubid]; exact hA3ub
    have hA4b : getOrder A4 bo.id = some (tradeFill bo tr.amount now) := by
      rw [hA4, applyVolume_getOrder, hA3, applyVolume_getOrder]
      exact hA2b
    have hA4s : getOrder A4 so.id = some (tradeFill so tr.amount now) := by
      rw [hA4, applyVolume_getOrder, hA3, applyVolume_getOrder]
      exact hA2s
    by_cases huu : so.userId = bo.userId
    · -- one user behind both (distinct) orders
      have husub : us = ub := by
        rw [huu] at hus
        exact Option.some_inj.1 (hus.symm.trans hub)
      have hgus2 : getUser A3 so.userId = some (volAdd ub tr.totalValue now) := by
        rw [huu]; exact hA3ub'
      have hreu2 : getUser A3 (volAdd ub tr.totalValue now).id
          = some (volAdd ub tr.totalValue now) := by
        show getUser A3 ub.id = _
        exact hA3ub
      have hA4u : getUser A4 (volAdd ub tr.totalValue now).id
          = some (volAdd (volAdd ub tr.totalValue now) tr.totalValue now) := by
        rw [hA4]; exact applyVolume_get_user_self now tr.totalValue hgus2 hreu2
      have hA4ub : getUser A4 bo.userId
          = some (volAdd (volAdd ub tr.totalValue now) tr.totalValue now) := by
        rw [← show (volAdd ub tr.totalValue now).id = bo.userId from hubid]
        exact hA4u
      refine ⟨?_, ?_, ?_, ?_⟩
      · rw [← hbid, hA4b]; rfl
      · rw [← hsid, hA4s]; rfl
      · rw [hA4ub]; simp [volAdd, huu]; omega
      · rw [huu, hA4ub, husub]; simp [volAdd, huu]; omega
    · -- different users behind the two orders
      have hne_uid : so.userId ≠ ub.id := by rw [hubid]; exact huu
      have hgus3 : getUser A3 so.userId = some us := by
        rw [hA3, applyVolume_get_user_ne now tr.totalValue hgub hreub hne_uid]
        exact hgus
      have hreus : getUser A3 us.id = some us := by rw [husid]; exact hgus3
      have hA4us : getUser A4 us.id = some (volAdd us tr.totalValue now) := by
        rw [hA4]; exact applyVolume_get_user_self now tr.totalValue hgus3 hreus
      have hA4us' : getUser A4 so.userId = some (volAdd us tr.totalValue now) := by
        rw [← husid]; exact hA4us
      have hA4ub : getUser A4 bo.userId = some (volAdd ub tr.totalValue now) := by
        rw [hA4, applyVolume_get_user_ne now tr.totalValue hgus3 hreus
          (show bo.userId ≠ us.id from by rw [husid]; exact fun h => huu h.symm)]
        exact hA3ub'
      refine ⟨?_, ?_, ?_, ?_⟩
      · rw [← hbid, hA4b]; rfl
      · rw [← hsid, hA4s]; rfl
      · rw [hA4ub]; simp [volAdd, huu]
      · rw [hA4us']; simp [volAdd, huu]

/-- Counterexample to C3 as stated: when the two order ids coincide (both
referencing order 1, owned by user 1), the user's `totalTradingVolume`
grows by `2 · totalValue` = 100, not by "exactly `t.totalValue`" = 50 —
the seller read happens after the buyer update, so the same user is
credited twice. -/
theorem createTrade_self_trade_volume_counterexample :
    (getUser c3Store 1).map User.totalTradingVolume = some 0 ∧
    (getUser (createTrade c3Store 7 c3Trade).2 1).map User.totalTradingVolume
      = some 100 ∧
    c3Trade.totalValue = 50 ∧ (100 : Int) ≠ 0 + 50 := by
  refine ⟨by decide, by decide, by decide, by decide⟩

/-- Witness for C3 (amended) at a concrete store with distinct orders and
users: each order's fill grows by the trade amount and each user's volume
by the trade's total value. -/
theorem createTrade_updates_fills_and_volumes_witness :
    (getOrder (createTrade c3wStore 3 c3wTrade).2 c3wTrade.buyOrderId).map
        Order.filled = some (c3wO1.filled + c3wTrade.amount) ∧
    (getOrder (createTrade c3wStore 3 c3wTrade).2 c3wTrade.sellOrderId).map
        Order.filled = some (c3wO2.filled + c3wTrade.amount) ∧
    (getUser (createTrade c3wStore 3 c3wTrade).2 c3wO1.userId).map
        User.totalTradingVolume
      = some (c3wU1.totalTradingVolume +
          (if c3wO2.userId = c3wO1.userId then 2 * c3wTrade.totalValue
           else c3wTrade.totalValue)) ∧
    (getUser (createTrade c3wStore 3 c3wTrade).2 c3wO2.userId).map
        User.totalTradingVolume
      = some (c3wU2.totalTradingVolume +
          (if c3wO2.userId = c3wO1.userId then 2 * c3wTrade.totalValue
           else c3wTrade.totalValue)) :=
  createTrade_updates_fills_and_volumes c3wStore 3 c3wTrade
    (by decide) (by decide) c3wO1 c3wO2 c3wU1 c3wU2 rfl rfl rfl rfl

@[simp] theorem applyOrderFill_orderCurrentId (s : Store) (now : Nat) (a : Int)
    (ob : Option Order) :
    (applyOrderFill s now a ob).orderCurrentId = s.orderCurrentId := by
  cases ob with
  | none => rfl
  | some o => exact (updateOrder_frame s now o.id _).2.2.2.2.2.2.2.2.1

@[simp] theorem applyVolume_orderCurrentId (s : Store) (now : Nat) (tv : Int)
    (ob : Option Order) :
    (applyVolume s now tv ob).orderCurrentId = s.orderCurrentId := by
  cases ob with
  | none => rfl
  | some o =>
    rw [applyVolume_some]
    cases h : getUser s o.userId with
    | none => rfl
    | some usr => exact (updateUser_frame s now usr.id _).2.2.2.2.2.2.2.2.1

/-- `applyOrderFill` on a stale order whose key is gone is a no-op. -/
theorem applyOrderFill_none_re {s : Store} {o : Order} (now : Nat) (a : Int)
    (hre : getOrder s o.id = none) : applyOrderFill s now a (some o) = s := by
  rw [applyOrderFill_some, updateOrder_none now _ hre]

/-- The fitting side condition gives the expected bound on a constrained
order. -/
theorem tradeFits_bound {a : Int} {o : Order}
    (hfit : tradeFitsOrder a (some o) = true)
    (htype : o.type ≠ "Market") (hamt : 0 < o.amount) :
    a ≤ o.amount - o.filled := by
  unfold tradeFitsOrder at hfit
  simp only [Bool.or_eq_true, beq_iff_eq, decide_eq_true_eq] at hfit
  rcases hfit with (h | h) | h
  · exact absurd h htype
  · exact absurd h (not_le.2 hamt)
  · exact h

/-- One fitting fill preserves the fill/status invariant, provided the
re-read record agrees with the stale one on `type` and `amount`. -/
theorem orderFillInv_fill {t : Store} {o o' : Order} (now : Nat) {a : Int}
    (hre : getOrder t o.id = some o')
    (htype : o'.type = o.type) (hamt : o'.amount = o.amount)
    (hfit : tradeFitsOrder a (some o) = true)
    (hprev : OrderFillInv t) :
    OrderFillInv (applyOrderFill t now a (some o)) := by
  intro k q hq hqt hqa
  by_cases hk : k = o.id
  · subst hk
    have hq2 : getOrder (applyOrderFill t now a (some o)) o.id = some q := hq
    rw [applyOrderFill_get_self now a hre] at hq2
    have hq' : q = { o' with
        filled := o.filled + a
        status := if o.filled + a ≥ o.amount then "Filled" else "Partial"
        updatedAt := now } := (Option.some_inj.1 hq2).symm
    subst hq'
    have hot : o.type ≠ "Market" := by rw [← htype]; exact hqt
    have hoa : 0 < o.amount := by rw [← hamt]; exact hqa
    have hbound : a ≤ o.amount - o.filled := tradeFits_bound hfit hot hoa
    constructor
    · show o.filled + a ≤ o'.amount
      rw [hamt]; omega
    · show (if o.filled + a ≥ o.amount then "Filled" else "Partial") = "Filled"
        ↔ o'.amount ≤ o.filled + a
      rw [hamt]
      by_cases hge : o.filled + a ≥ o.amount
      · simp [hge]
      · rw [if_neg hge]
        exact iff_of_false (by decide) (fun h => hge h)
  · have hq2 : getOrder (applyOrderFill t now a (some o)) k = some q := hq
    rw [applyOrderFill_get_ne now a hre hk] at hq2
    exact hprev k q hq2 hqt hqa

/-- Any fill step preserves the structural well-formedness of the orders
map. -/
theorem ordersWF_fill {t : Store} (now : Nat) (a : Int) (ob : Option Order)
    (hwf : OrdersWF t) : OrdersWF (applyOrderFill t now a ob) := by
  cases ob with
  | none => exact hwf
  | some o =>
    cases hre : getOrder t o.id with
    | none => rw [applyOrderFill_none_re now a hre]; exact hwf
    | some o' =>
      rw [applyOrderFill_some_eq now a hre]
      constructor
      · refine WFmap_mapSet hwf.1 ?_
        show Order.id o' = o.id
        exact WFmap_gid_of_mapGet hwf.1 hre
      · exact keysBelow_mapSet hwf.2 (hwf.2 (o.id, o') (mapGet_eq_some_mem hre))

theorem ordersWF_applyVolume (s : Store) (now : Nat) (tv : Int)
    (ob : Option Order) : OrdersWF (applyVolume s now tv ob) ↔ OrdersWF s := by
  unfold OrdersWF
  rw [applyVolume_orders, applyVolume_orderCurrentId]

theorem orderFillInv_applyVolume (s : Store) (now : Nat) (tv : Int)
    (ob : Option Order) :
    OrderFillInv (applyVolume s now tv ob) ↔ OrderFillInv s := by
  unfold OrderFillInv
  simp only [applyVolume_orders]

/-- The stored order after `createOrder`. -/
theorem createOrder_get_self (s : Store) (now : Nat) (x : InsertOrder) :
    getOrder (createOrder s now x).2 s.orderCurrentId
      = some (createOrder s now x).1 :=
  mapGet_mapSet_self s.orders s.orderCurrentId _

/-- `createOrder` preserves the C2 invariants. -/
theorem orderStep_createOrder (s : Store) (now : Nat) (x : InsertOrder)
    (hwf : OrdersWF s) (hinv : OrderFillInv s) :
    OrdersWF (createOrder s now x).2 ∧ OrderFillInv (createOrder s now x).2 := by
  constructor
  · constructor
    · show WFmap Order.id (mapSet s.orders s.orderCurrentId (createOrder s now x).1)
      exact WFmap_mapSet hwf.1 rfl
    · show keysBelow (mapSet s.orders s.orderCurrentId (createOrder s now x).1)
        (s.orderCurrentId + 1)
      exact keysBelow_mapSet (keysBelow_mono hwf.2 (Nat.le_succ _))
        (Nat.lt_succ_self _)
  · intro k o hk htype hamt
    by_cases hkc : k = s.orderCurrentId
    · subst hkc
      have h1 : some o = some (createOrder s now x).1 :=
        hk.symm.trans (createOrder_get_self s now x)
      have ho : o = (createOrder s now x).1 := Option.some_inj.1 h1
      subst ho
      have htx : (x.type == "Market") = false := by
        simp only [beq_eq_false_iff_ne, ne_eq]
        exact fun h => htype h
      constructor
      · show (0 : Int) ≤ x.amount
        exact le_of_lt hamt
      · show (if x.type == "Market" then "Filled" else "Open") = "Filled"
          ↔ x.amount ≤ (0 : Int)
        rw [htx]
        exact iff_of_false (by decide) (not_le.2 hamt)
    · have hk2 : mapGet (mapSet s.orders s.orderCurrentId (createOrder s now x).1)
          k = some o := hk
      rw [mapGet_mapSet_ne s.orders _ hkc] at hk2
      exact hinv k o hk2 htype hamt

/-- `createTrade` under the fitting side condition preserves the C2
invariants. -/
theorem orderStep_createTrade (s : Store) (now : Nat) (x : InsertTrade)
    (hwf : OrdersWF s) (hinv : OrderFillInv s)
    (hfb : tradeFitsOrder x.amount (getOrder s x.buyOrderId) = true)
    (hfs : tradeFitsOrder x.amount (getOrder s x.sellOrderId) = true) :
    OrdersWF (createTrade s now x).2 ∧ OrderFillInv (createTrade s now x).2 := by
  rw [createTrade_snd]
  set S1 : Store := { s with
    trades := (mapSet s.trades s.tradeCurrentId (createTrade s now x).1),
    tradeCurrentId := s.tradeCurrentId + 1 } with hS1
  have hwf1 : OrdersWF S1 := hwf
  have hinv1 : OrderFillInv S1 := hinv
  constructor
  · rw [ordersWF_applyVolume, ordersWF_applyVolume]
    exact ordersWF_fill now x.amount _ (ordersWF_fill now x.amount _ hwf1)
  · rw [orderFillInv_applyVolume, orderFillInv_applyVolume]
    cases hbo : getOrder s x.buyOrderId with
    | none =>
      -- first fill leaves the store alone
      cases hso : getOrder s x.sellOrderId with
      | none => exact hinv1
      | some so =>
        rw [hso] at hfs
        have hsid : so.id = x.sellOrderId := WFmap_gid_of_mapGet hwf.1 hso
        have hre : getOrder S1 so.id = some so := by rw [hsid]; exact hso
        exact orderFillInv_fill now hre rfl rfl hfs hinv1
    | some bo =>
      rw [hbo] at hfb
      have hbid : bo.id = x.buyOrderId := WFmap_gid_of_mapGet hwf.1 hbo
      have hreb : getOrder S1 bo.id = some bo := by rw [hbid]; exact hbo
      have hinv2 : OrderFillInv (applyOrderFill S1 now x.amount (some bo)) :=
        orderFillInv_fill now hreb rfl rfl hfb hinv1
      cases hso : getOrder s x.sellOrderId with
      | none => exact hinv2
      | some so =>
        rw [hso] at hfs
        have hsid : so.id = x.sellOrderId := WFmap_gid_of_mapGet hwf.1 hso
        by_cases hbs : so.id = bo.id
        · -- both sides of the trade reference the same order
          have hsobo : so = bo := by
            have h1 : getOrder s so.id = some so := by rw [hsid]; exact hso
            rw [hbs, hbid] at h1
            exact Option.some_inj.1 (h1.symm.trans hbo)
          have hA1b : getOrder (applyOrderFill S1 now x.amount (some bo)) bo.id
              = some (tradeFill bo x.amount now) :=
            applyOrderFill_get_self now x.amount hreb
          have hre2 : getOrder (applyOrderFill S1 now x.amount (some bo)) so.id
              = some (tradeFill bo x.amount now) := by
            rw [hbs]; exact hA1b
          exact orderFillInv_fill now hre2 (by rw [hsobo]; rfl)
            (by rw [hsobo]; rfl) hfs hinv2
        · -- the two orders are distinct
          have hre2 : getOrder (applyOrderFill S1 now x.amount (some bo)) so.id
              = some so := by
            rw [applyOrderFill_get_ne now x.amount hreb hbs]
            rw [hsid]; exact hso
          exact orderFillInv_fill now hre2 rfl rfl hfs hinv2

/-- A guarded run preserves the C2 invariants. -/
theorem orderInv_run : ∀ (ops : List Op) (s : Store), OrdersWF s →
    OrderFillInv s → runSafe orderSafe s ops = true →
    OrdersWF (applyOps s ops) ∧ OrderFillInv (applyOps s ops) := by
  intro ops
  induction ops with
  | nil => intro s h1 h2 _; exact ⟨h1, h2⟩
  | cons op rest ih =>
    intro s h1 h2 hsafe
    have hsafe2 : (orderSafe s op && runSafe orderSafe (applyOp s op) rest) = true :=
      hsafe
    obtain ⟨hop, hrest⟩ := Bool.and_eq_true_iff.1 hsafe2
    have hstep : OrdersWF (applyOp s op) ∧ OrderFillInv (applyOp s op) := by
      cases op
      case opCreateOrder now x => exact orderStep_createOrder s now x h1 h2
      case opCreateTrade now x =>
        have hop2 : (tradeFitsOrder x.amount (getOrder s x.buyOrderId) &&
            tradeFitsOrder x.amount (getOrder s x.sellOrderId)) = true := hop
        obtain ⟨hfb, hfs⟩ := Bool.and_eq_true_iff.1 hop2
        exact orderStep_createTrade s now x h1 h2 hfb hfs
      all_goals simp [orderSafe] at hop
    exact ih (applyOp s op) hstep.1 hstep.2 hrest

/-- **C2 (amended).**  After any sequence of `createOrder` and `createTrade`
operations from the fresh store in which every trade fits into the
positive-amount Limit orders it references (amount at most the order's
remaining `amount − filled` at the time), every stored **Limit** order with
**positive** amount satisfies `filled ≤ amount` and
`status = "Filled" ↔ filled ≥ amount`.  Market orders are exempt (they are
created with status `"Filled"` at `filled = 0`), zero/negative-amount orders
are exempt, and without the fitting side condition `createTrade` over-fills
(the store never caps `filled`). -/
theorem orders_fill_status_invariant (ops : List Op)
    (hrun : runSafe orderSafe initStore ops = true) :
    ∀ k o, mapGet ((applyOps initStore ops)).orders k = some o →
      o.type ≠ "Market" → 0 < o.amount →
      o.filled ≤ o.amount ∧ (o.status = "Filled" ↔ o.amount ≤ o.filled) := by
  have h0wf : OrdersWF initStore := ⟨by decide, by decide⟩
  have h0inv : OrderFillInv initStore := by
    intro k o h
    rw [show initStore.orders = [] from rfl] at h
    simp [mapGet] at h
  exact (orderInv_run ops initStore h0wf h0inv hrun).2

/-- Counterexample to C2 as stated, on a store reached by `createOrder` and
`createTrade` alone: order 1 (Market) has status `"Filled"` with
`filled = 0 < 500 = amount`; order 2 has `filled = 150 > 100 = amount`
(no over-fill cap); order 3 (amount 0) has `filled ≥ amount` but status
`"Open"`. -/
theorem order_fill_status_counterexample :
    ((getOrder c2Store 1).map Order.status = some "Filled" ∧
     (getOrder c2Store 1).map Order.filled = some 0 ∧
     (getOrder c2Store 1).map Order.amount = some 500) ∧
    ((getOrder c2Store 2).map Order.filled = some 150 ∧
     (getOrder c2Store 2).map Order.amount = some 100) ∧
    ((getOrder c2Store 3).map Order.status = some "Open" ∧
     (getOrder c2Store 3).map Order.filled = some 0 ∧
     (getOrder c2Store 3).map Order.amount = some 0) :=
  ⟨⟨by decide, by decide, by decide⟩, ⟨by decide, by decide⟩,
   ⟨by decide, by decide, by decide⟩⟩

/-- Witness for C2 (amended): the guarded run above is accepted and the
resulting order satisfies the invariant. -/
theorem orders_fill_status_invariant_witness :
    c2wOrder.filled ≤ c2wOrder.amount ∧
    (c2wOrder.status = "Filled" ↔ c2wOrder.amount ≤ c2wOrder.filled) :=
  orders_fill_status_invariant c2wOps (by decide) 1 c2wOrder (by decide)
    (by decide) (by decide)

theorem mem_mapSet_cases {α : Type} {m : List (Nat × α)} {k : Nat} {v : α}
    {p : Nat × α} (hp : p ∈ mapSet m k v) :
    p = (k, v) ∨ (p ∈ m ∧ p.1 ≠ k) := by
  unfold mapSet at hp
  by_cases hhas : mapHas m k
  · rw [if_pos hhas] at hp
    obtain ⟨q, hq, hqp⟩ := List.mem_map.1 hp
    by_cases hqk : q.1 = k
    · left; rw [← hqp]; simp [hqk]
    · right
      rw [← hqp, if_neg (by simpa using hqk)]
      exact ⟨hq, hqk⟩
  · have hhas' : mapHas m k = false := by simpa using hhas
    rw [if_neg hhas] at hp
    rcases List.mem_append.1 hp with hp | hp
    · exact Or.inr ⟨hp, mapHas_eq_false hhas' p hp⟩
    · left; simpa using hp

theorem mapHas_eq_false_of_keysBelow {α : Type} {m : List (Nat × α)} {c : Nat}
    (h : keysBelow m c) : mapHas m c = false := by
  simp only [mapHas, List.any_eq_false, beq_iff_eq]
  exact fun p hp => Nat.ne_of_lt (h p hp)

theorem mapGet_isSome_key_lt {α : Type} {m : List (Nat × α)} {k c : Nat}
    (h : (mapGet m k).isSome = true) (hb : keysBelow m c) : k < c := by
  obtain ⟨u, hu⟩ := Option.isSome_iff_exists.1 h
  exact hb (k, u) (mapGet_eq_some_mem hu)

/-- Adding an event under a fresh key adds its points to the sum of the
events of its user and leaves every other user's sum unchanged. -/
theorem sumPoints_mapSet_fresh {evts : List (Nat × RewardsEvent)} {eid : Nat}
    (e : RewardsEvent) (uid : Nat) (hfresh : mapHas evts eid = false) :
    sumPoints (mapSet evts eid e) uid
      = sumPoints evts uid + (if e.userId = uid then e.points else 0) := by
  unfold sumPoints
  rw [values_mapSet_of_not_has e hfresh, List.filter_append, List.map_append,
    List.sum_append]
  congr 1
  by_cases h : e.userId = uid
  · rw [if_pos h]; simp [List.filter_cons, h]
  · rw [if_neg h]; simp [List.filter_cons, h]

/-- A user id carried by no stored event has event-point sum `0`. -/
theorem sumPoints_zero {evts : List (Nat × RewardsEvent)} {uid : Nat}
    (h : ∀ e ∈ mapValues evts, e.userId ≠ uid) : sumPoints evts uid = 0 := by
  unfold sumPoints
  have hnil : (mapValues evts).filter (fun e => e.userId == uid) = [] :=
    List.filter_eq_nil_iff.2 (fun e he => by simp [h e he])
  rw [hnil]
  rfl

/-- `RewardsInv` only looks at the users, the rewards events and their two
counters, so it transfers along any operation that leaves those alone. -/
theorem rewardsInv_congr {s t : Store}
    (hu : t.users = s.users) (he : t.rewardsEvents = s.rewardsEvents)
    (huc : t.userCurrentId = s.userCurrentId)
    (hec : t.rewardsEventCurrentId = s.rewardsEventCurrentId)
    (h : RewardsInv s) : RewardsInv t := by
  unfold RewardsInv UsersWF
  rw [hu, he, huc, hec]
  exact h

/-- Overwriting an existing user with a record that keeps its `id` and
`rewardsPoints` preserves `RewardsInv`. -/
theorem rewardsInv_userStep {s : Store} {k : Nat} {u u' : User}
    (hinv : RewardsInv s) (hku : mapGet s.users k = some u)
    (hid : u'.id = u.id) (hpts : u'.rewardsPoints = u.rewardsPoints) :
    RewardsInv { s with users := (mapSet s.users k u') } := by
  obtain ⟨⟨hwf, hkb⟩, hekb, href, hpinv⟩ := hinv
  have hidk : u.id = k := WFmap_gid_of_mapGet hwf hku
  refine ⟨⟨?_, ?_⟩, hekb, ?_, ?_⟩
  · exact WFmap_mapSet hwf (by rw [hid, hidk])
  · exact keysBelow_mapSet hkb (hidk ▸ hkb (k, u) (mapGet_eq_some_mem hku))
  · intro e he
    exact mapGet_isSome_mapSet _ _ _ _ (href e he)
  · intro p hp
    rcases mem_mapSet_cases hp with hp | ⟨hp, hpk⟩
    · rw [hp]
      show u'.rewardsPoints = sumPoints s.rewardsEvents u'.id
      rw [hpts, hid]
      exact hpinv (k, u) (mapGet_eq_some_mem hku)
    · exact hpinv p hp

/-- `createRewardsEvent`, unfolded to the stored-event store followed by the
conditional `updateUser`. -/
theorem createRewardsEvent_snd (s : Store) (now : Nat) (x : InsertRewardsEvent) :
    (createRewardsEvent s now x).2 =
      match getUser s x.userId with
      | none =>
        { s with rewardsEvents := (mapSet s.rewardsEvents s.rewardsEventCurrentId
              (createRewardsEvent s now x).1),
                 rewardsEventCurrentId := s.rewardsEventCurrentId + 1 }
      | some user =>
        (updateUser
          { s with rewardsEvents := (mapSet s.rewardsEvents s.rewardsEventCurrentId
                (createRewardsEvent s now x).1),
                   rewardsEventCurrentId := s.rewardsEventCurrentId + 1 }
          now user.id
          { rewardsPoints := some (user.rewardsPoints + x.points) }).2 := rfl

/-- Crediting trade volume to the user behind an order preserves
`RewardsInv`: the volume patch leaves `id` and `rewardsPoints` alone. -/
theorem rewardsInv_applyVolume {t : Store} (now : Nat) (tv : Int)
    (ob : Option Order) (hinv : RewardsInv t) :
    RewardsInv (applyVolume t now tv ob) := by
  cases ob with
  | none => exact hinv
  | some o =>
    rw [applyVolume_some]
    cases hg : getUser t o.userId with
    | none => exact hinv
    | some usr =>
      have husr : usr.id = o.userId := WFmap_gid_of_mapGet hinv.1.1 hg
      have hre : getUser t usr.id = some usr := by rw [husr]; exact hg
      show RewardsInv (updateUser t now usr.id
        { totalTradingVolume := some (usr.totalTradingVolume + tv) }).2
      rw [updateUser_some now _ hre]
      refine rewardsInv_userStep hinv hre ?_ ?_ <;> rfl

/-- One guarded operation preserves `RewardsInv`. -/
theorem rewardsStep (s : Store) (op : Op) (hinv : RewardsInv s)
    (hsafe : rewardsSafe s op = true) : RewardsInv (applyOp s op) := by
  cases op with
  | opCreateUser now x =>
    obtain ⟨⟨hwf, hkb⟩, hekb, href, hpinv⟩ := hinv
    refine ⟨⟨?_, ?_⟩, hekb, ?_, ?_⟩
    · refine WFmap_mapSet hwf ?_
      rfl
    · show keysBelow (mapSet s.users s.userCurrentId (createUser s now x).1)
        (s.userCurrentId + 1)
      exact keysBelow_mapSet (keysBelow_mono hkb (Nat.le_succ _)) (Nat.lt_succ_self _)
    · intro e he
      exact mapGet_isSome_mapSet _ _ _ _ (href e he)
    · intro p hp
      rcases mem_mapSet_cases hp with hp1 | ⟨hp1, hpk⟩
      · rw [hp1]
        have hz : sumPoints s.rewardsEvents s.userCurrentId = 0 := by
          apply sumPoints_zero
          intro e he hctr
          exact absurd (hctr ▸ mapGet_isSome_key_lt (href e he) hkb)
            (Nat.lt_irrefl _)
        show (0 : Int) = sumPoints s.rewardsEvents s.userCurrentId
        rw [hz]
      · exact hpinv p hp1
  | opUpdateUser now id d =>
    have hs2 : (d.rewardsPoints.isNone && d.id.isNone) = true := hsafe
    obtain ⟨hrp, hid⟩ := Bool.and_eq_true_iff.1 hs2
    cases hg : getUser s id with
    | none =>
      show RewardsInv (updateUser s now id d).2
      rw [updateUser_none now d hg]
      exact hinv
    | some u =>
      show RewardsInv (updateUser s now id d).2
      rw [updateUser_some now d hg]
      refine rewardsInv_userStep hinv hg ?_ ?_
      · show d.id.getD u.id = u.id
        rw [Option.isNone_iff_eq_none.1 hid]
        rfl
      · show d.rewardsPoints.getD u.rewardsPoints = u.rewardsPoints
        rw [Option.isNone_iff_eq_none.1 hrp]
        rfl
  | opVerifyUser now token =>
    cases hfind : (mapValues s.users).find?
        (fun u => u.verificationToken == some token) with
    | none =>
      show RewardsInv (verifyUser s now token).2
      rw [verifyUser_none now hfind]
      exact hinv
    | some u =>
      show RewardsInv (verifyUser s now token).2
      rw [verifyUser_some now hfind]
      have hku : mapGet s.users u.id = some u :=
        mapGet_of_mem_values hinv.1.1 (List.mem_of_find?_eq_some hfind)
      refine rewardsInv_userStep hinv hku ?_ ?_ <;> rfl
  | opResetPassword now token newPassword =>
    cases hfind : (mapValues s.users).find? (fun u => resetTokenLive u token now) with
    | none =>
      show RewardsInv (resetPassword s now token newPassword).2
      rw [resetPassword_none now hfind]
      exact hinv
    | some u =>
      show RewardsInv (resetPassword s now token newPassword).2
      rw [resetPassword_some now hfind]
      have hku : mapGet s.users u.id = some u :=
        mapGet_of_mem_values hinv.1.1 (List.mem_of_find?_eq_some hfind)
      refine rewardsInv_userStep hinv hku ?_ ?_ <;> rfl
  | opGenerateResetToken now email token =>
    cases hg : getUserByEmail s email with
    | none =>
      show RewardsInv (generateResetToken s now email token).2
      rw [generateResetToken_none now hg]
      exact hinv
    | some u =>
      show RewardsInv (generateResetToken s now email token).2
      rw [generateResetToken_some now hg]
      have hku : mapGet s.users u.id = some u :=
        mapGet_of_mem_values hinv.1.1 (List.mem_of_find?_eq_some hg)
      refine rewardsInv_userStep hinv hku ?_ ?_ <;> rfl
  | opCreateTradingPair x =>
    refine rewardsInv_congr ?_ ?_ ?_ ?_ hinv <;> rfl
  | opUpdateTradingPair id d =>
    cases hg : getTradingPair s id with
    | none =>
      show RewardsInv (updateTradingPair s id d).2
      rw [updateTradingPair_none d hg]
      exact hinv
    | some q =>
      show RewardsInv (updateTradingPair s id d).2
      rw [updateTradingPair_some d hg]
      refine rewardsInv_congr ?_ ?_ ?_ ?_ hinv <;> rfl
  | opCreateOrder now x =>
    refine rewardsInv_congr ?_ ?_ ?_ ?_ hinv <;> rfl
  | opUpdateOrder now id d =>
    cases hg : getOrder s id with
    | none =>
      show RewardsInv (updateOrder s now id d).2
      rw [updateOrder_none now d hg]
      exact hinv
    | some o =>
      show RewardsInv (updateOrder s now id d).2
      rw [updateOrder_some now d hg]
      refine rewardsInv_congr ?_ ?_ ?_ ?_ hinv <;> rfl
  | opCreateTrade now x =>
    show RewardsInv (createTrade s now x).2
    rw [createTrade_snd]
    refine rewardsInv_applyVolume now x.totalValue _ ?_
    refine rewardsInv_applyVolume now x.totalValue _ ?_
    refine rewardsInv_congr (applyOrderFill_users _ _ _ _)
      (applyOrderFill_rewardsEvents _ _ _ _) (applyOrderFill_userCurrentId _ _ _ _)
      (applyOrderFill_rewardsEventCurrentId _ _ _ _) ?_
    refine rewardsInv_congr (applyOrderFill_users _ _ _ _)
      (applyOrderFill_rewardsEvents _ _ _ _) (applyOrderFill_userCurrentId _ _ _ _)
      (applyOrderFill_rewardsEventCurrentId _ _ _ _) ?_
    refine rewardsInv_congr ?_ ?_ ?_ ?_ hinv <;> rfl
  | opCreateRewardsEvent now x =>
    have hsafe' : (getUser s x.userId).isSome = true := hsafe
    obtain ⟨u, hu⟩ := Option.isSome_iff_exists.1 hsafe'
    obtain ⟨⟨hwf, hkb⟩, hekb, href, hpinv⟩ := hinv
    have hfresh : mapHas s.rewardsEvents s.rewardsEventCurrentId = false :=
      mapHas_eq_false_of_keysBelow hekb
    have huid : u.id = x.userId := WFmap_gid_of_mapGet hwf hu
    show RewardsInv (createRewardsEvent s now x).2
    rw [createRewardsEvent_snd, hu]
    show RewardsInv (updateUser
      { s with rewardsEvents := (mapSet s.rewardsEvents s.rewardsEventCurrentId
            (createRewardsEvent s now x).1),
               rewardsEventCurrentId := s.rewardsEventCurrentId + 1 }
      now u.id { rewardsPoints := some (u.rewardsPoints + x.points) }).2
    have hre : getUser
        { s with rewardsEvents := (mapSet s.rewardsEvents s.rewardsEventCurrentId
              (createRewardsEvent s now x).1),
                 rewardsEventCurrentId := s.rewardsEventCurrentId + 1 }
        u.id = some u := by
      show mapGet s.users u.id = some u
      rw [huid]
      exact hu
    rw [updateUser_some now _ hre]
    refine ⟨⟨?_, ?_⟩, ?_, ?_, ?_⟩
    · refine WFmap_mapSet hwf ?_
      rfl
    · refine keysBelow_mapSet hkb ?_
      show u.id < s.userCurrentId
      rw [huid]
      exact mapGet_isSome_key_lt hsafe' hkb
    · show keysBelow (mapSet s.rewardsEvents s.rewardsEventCurrentId
          (createRewardsEvent s now x).1) (s.rewardsEventCurrentId + 1)
      exact keysBelow_mapSet (keysBelow_mono hekb (Nat.le_succ _)) (Nat.lt_succ_self _)
    · intro e he
      have he' : e ∈ mapValues (mapSet s.rewardsEvents s.rewardsEventCurrentId
          (createRewardsEvent s now x).1) := he
      rw [values_mapSet_of_not_has _ hfresh] at he'
      rcases List.mem_append.1 he' with h1 | h1
      · exact mapGet_isSome_mapSet _ _ _ _ (href e h1)
      · have h2 : e = (createRewardsEvent s now x).1 := by simpa using h1
        rw [h2]
        exact mapGet_isSome_mapSet _ _ _ _ hsafe'
    · intro p hp
      rcases mem_mapSet_cases hp with hp1 | ⟨hp1, hpk⟩
      · rw [hp1]
        show u.rewardsPoints + x.points
            = sumPoints (mapSet s.rewardsEvents s.rewardsEventCurrentId
                (createRewardsEvent s now x).1) u.id
        rw [sumPoints_mapSet_fresh _ _ hfresh]
        have hc : (createRewardsEvent s now x).1.userId = u.id := huid.symm
        rw [if_pos hc]
        have hup : u.rewardsPoints = sumPoints s.rewardsEvents u.id :=
          hpinv (u.id, u) (mapGet_eq_some_mem hre)
        rw [hup]
        rfl
      · have hpid : p.2.id = p.1 := hwf.2 p hp1
        show p.2.rewardsPoints
            = sumPoints (mapSet s.rewardsEvents s.rewardsEventCurrentId
                (createRewardsEvent s now x).1) p.2.id
        rw [sumPoints_mapSet_fresh _ _ hfresh]
        have hne : ¬((createRewardsEvent s now x).1.userId = p.2.id) := by
          show ¬(x.userId = p.2.id)
          rw [hpid]
          intro hctr
          exact hpk (hctr.symm.trans huid.symm)
        rw [if_neg hne, add_zero]
        exact hpinv p hp1
  | opCreateRewardsTier x =>
    refine rewardsInv_congr ?_ ?_ ?_ ?_ hinv <;> rfl
  | opCreateNewsArticle x =>
    refine rewardsInv_congr ?_ ?_ ?_ ?_ hinv <;> rfl
  | opUpdateNewsArticle id d =>
    cases hg : getNewsArticle s id with
    | none =>
      show RewardsInv (updateNewsArticle s id d).2
      rw [updateNewsArticle_none d hg]
      exact hinv
    | some a =>
      show RewardsInv (updateNewsArticle s id d).2
      rw [updateNewsArticle_some d hg]
      refine rewardsInv_congr ?_ ?_ ?_ ?_ hinv <;> rfl
  | opCreateSubscriber now x =>
    refine rewardsInv_congr ?_ ?_ ?_ ?_ hinv <;> rfl
  | opUnsubscribe email =>
    cases hg : getSubscriberByEmail s email with
    | none =>
      show RewardsInv (unsubscribe s email).2
      rw [unsubscribe_none hg]
      exact hinv
    | some sub =>
      show RewardsInv (unsubscribe s email).2
      rw [unsubscribe_some hg]
      refine rewardsInv_congr ?_ ?_ ?_ ?_ hinv <;> rfl

/-- `RewardsInv` holds after every guarded run. -/
theorem rewardsInv_run : ∀ (ops : List Op) (s : Store), RewardsInv s →
    runSafe rewardsSafe s ops = true → RewardsInv (applyOps s ops) := by
  intro ops
  induction ops with
  | nil => intro s hinv _; exact hinv
  | cons op ops ih =>
    intro s hinv hsafe
    have hsafe2 : (rewardsSafe s op && runSafe rewardsSafe (applyOp s op) ops) = true :=
      hsafe
    obtain ⟨h1, h2⟩ := Bool.and_eq_true_iff.1 hsafe2
    exact ih (applyOp s op) (rewardsStep s op hinv h1) h2

/-- The seeded constructor store satisfies the rewards invariant: it holds
no users and no rewards events. -/
theorem rewardsInv_initStore : RewardsInv initStore :=
  ⟨⟨by decide, by decide⟩, by decide, by decide, by decide⟩

/-- C1: on every run from the constructor store in which each rewards event
references an existing user and no raw `updateUser` patches `rewardsPoints`
or `id`, every stored user's `rewardsPoints` equals the sum of `points` over
the stored rewards events carrying their id; `createUser` initializes
`rewardsPoints` to `0`; and on a well-formed users map `createRewardsEvent`
increments the referenced existing user's `rewardsPoints` by exactly
`event.points`.  (Without the run restrictions the first part fails: an
event for a not-yet-existing user is kept, and a later `createUser` can take
that id with `rewardsPoints` `0`.) -/
theorem rewardsPoints_eq_sumPoints :
    (∀ ops : List Op, runSafe rewardsSafe initStore ops = true →
      ∀ (k : Nat) (u : User), mapGet (applyOps initStore ops).users k = some u →
        u.rewardsPoints = sumPoints (applyOps initStore ops).rewardsEvents u.id) ∧
    (∀ (s : Store) (now : Nat) (x : InsertUser),
      (createUser s now x).1.rewardsPoints = 0) ∧
    (∀ (s : Store) (now : Nat) (x : InsertRewardsEvent) (u : User),
      WFmap User.id s.users → getUser s x.userId = some u →
      (getUser (createRewardsEvent s now x).2 x.userId).map User.rewardsPoints
        = some (u.rewardsPoints + x.points)) := by
  refine ⟨?_, ?_, ?_⟩
  · intro ops hsafe k u hget
    have hinv := rewardsInv_run ops initStore rewardsInv_initStore hsafe
    exact hinv.2.2.2 (k, u) (mapGet_eq_some_mem hget)
  · intro s now x
    rfl
  · intro s now x u hwf hu
    have huid : u.id = x.userId := WFmap_gid_of_mapGet hwf hu
    rw [createRewardsEvent_snd, hu]
    show (getUser (updateUser
        { s with rewardsEvents := (mapSet s.rewardsEvents s.rewardsEventCurrentId
              (createRewardsEvent s now x).1),
                 rewardsEventCurrentId := s.rewardsEventCurrentId + 1 }
        now u.id { rewardsPoints := some (u.rewardsPoints + x.points) }).2
      x.userId).map User.rewardsPoints = some (u.rewardsPoints + x.points)
    have hre : getUser
        { s with rewardsEvents := (mapSet s.rewardsEvents s.rewardsEventCurrentId
              (createRewardsEvent s now x).1),
                 rewardsEventCurrentId := s.rewardsEventCurrentId + 1 }
        u.id = some u := by
      show mapGet s.users u.id = some u
      rw [huid]
      exact hu
    rw [updateUser_some now _ hre]
    show (mapGet (mapSet s.users u.id
        ({ applyUserPatch u { rewardsPoints := some (u.rewardsPoints + x.points) }
            with updatedAt := now }))
      x.userId).map User.rewardsPoints = some (u.rewardsPoints + x.points)
    rw [← huid, mapGet_mapSet_self]
    rfl

/-- Counterexample to the unrestricted C1 claim: after
`createRewardsEvent({userId: 1, points: 10, ...})` (user 1 absent, so no
points are credited) followed by `createUser` (which takes id 1), the stored
user 1 has `rewardsPoints` 0 while the sum of their events' points is 10. -/
theorem rewardsPoints_sum_counterexample :
    (getUser c1Store 1).map User.rewardsPoints = some 0 ∧
    sumPoints c1Store.rewardsEvents 1 = 10 ∧ (0 : Int) ≠ 10 :=
  ⟨by decide, by decide, by decide⟩

/-- Witness for C1 (amended): the guarded run above is accepted and leaves
user 1 with `rewardsPoints` equal to their event-point sum, and
`createRewardsEvent` on the concrete one-user store adds exactly the event's
points. -/
theorem rewardsPoints_eq_sumPoints_witness :
    (runSafe rewardsSafe initStore c1wOps = true ∧
      c1wUser.rewardsPoints
        = sumPoints (applyOps initStore c1wOps).rewardsEvents c1wUser.id) ∧
    (WFmap User.id c1wStore.users ∧
      (getUser (createRewardsEvent c1wStore 9 c1wEvent).2 c1wEvent.userId).map
          User.rewardsPoints = some (c1wU.rewardsPoints + c1wEvent.points)) :=
  ⟨⟨by decide, rewardsPoints_eq_sumPoints.1 c1wOps (by decide) 1 c1wUser rfl⟩,
   ⟨by decide, rewardsPoints_eq_sumPoints.2.2 c1wStore 9 c1wEvent c1wU (by decide) rfl⟩⟩

end MemStorage
